import Mathlib

/-
Verification of the greentic-messaging-providers test harness and provider
modules: a shallow embedding of the Rust sources into Lean 4, with theorems
settling the behavioural claims about validation, the mock HTTP layer,
signature checking, the webex provider component and the webchat
DirectLine JWT helper.

Strings from the Rust code are modelled as their byte content
(`Bytes := List Nat`, each entry a byte value), so UTF-8 concerns do not
arise: Rust `String`/`&str` values are byte sequences here, and all the
byte-level operations of the source (HMAC, hex, base64, JSON escaping)
act on them directly.
-/

set_option maxRecDepth 100000

namespace GMP

/-- Byte strings: the content of a Rust `Vec<u8>`, `String` or `&str`. -/
abbrev Bytes := List Nat

/-- ASCII view of a Lean string literal, used to write concrete byte
strings in theorems and witnesses. -/
def ascii (s : String) : Bytes := s.data.map Char.toNat

/-! ## SHA-256 (FIPS 180-4), pure `Nat` arithmetic modulo 2^32 -/

namespace Sha256

def M32 : Nat := 4294967296

def rotr (n x : Nat) : Nat := ((x >>> n) ||| (x <<< (32 - n))) % M32

def shr (n x : Nat) : Nat := x >>> n

def bSig0 (x : Nat) : Nat := (rotr 2 x) ^^^ (rotr 13 x) ^^^ (rotr 22 x)

def bSig1 (x : Nat) : Nat := (rotr 6 x) ^^^ (rotr 11 x) ^^^ (rotr 25 x)

def sSig0 (x : Nat) : Nat := (rotr 7 x) ^^^ (rotr 18 x) ^^^ (shr 3 x)

def sSig1 (x : Nat) : Nat := (rotr 17 x) ^^^ (rotr 19 x) ^^^ (shr 10 x)

def chf (x y z : Nat) : Nat := (x &&& y) ^^^ ((x ^^^ 4294967295) &&& z)

def maj (x y z : Nat) : Nat := (x &&& y) ^^^ (x &&& z) ^^^ (y &&& z)

def K : List Nat :=
  [1116352408, 1899447441, 3049323471, 3921009573, 961987163, 1508970993,
   2453635748, 2870763221, 3624381080, 310598401, 607225278, 1426881987,
   1925078388, 2162078206, 2614888103, 3248222580, 3835390401, 4022224774,
   264347078, 604807628, 770255983, 1249150122, 1555081692, 1996064986,
   2554220882, 2821834349, 2952996808, 3210313671, 3336571891, 3584528711,
   113926993, 338241895, 666307205, 773529912, 1294757372, 1396182291,
   1695183700, 1986661051, 2177026350, 2456956037, 2730485921, 2820302411,
   3259730800, 3345764771, 3516065817, 3600352804, 4094571909, 275423344,
   430227734, 506948616, 659060556, 883997877, 958139571, 1322822218,
   1537002063, 1747873779, 1955562222, 2024104815, 2227730452, 2361852424,
   2428436474, 2756734187, 3204031479, 3329325298]

def H0 : List Nat :=
  [1779033703, 3144134277, 1013904242, 2773480762, 1359893119, 2600822924,
   528734635, 1541459225]

/-- Big-endian bytes of `x`, `n` bytes wide. -/
def beBytes (n x : Nat) : Bytes :=
  match n with
  | 0 => []
  | m + 1 => ((x >>> (8 * m)) % 256) :: beBytes m x

/-- SHA-256 padding: append `0x80`, zeros, then the 64-bit big-endian
bit length, reaching a multiple of 64 bytes. -/
def pad (msg : Bytes) : Bytes :=
  let l := msg.length
  let zeros := (64 - ((l + 9) % 64)) % 64
  msg ++ [0x80] ++ List.replicate zeros 0 ++ beBytes 8 (8 * l)

/-- Big-endian 32-bit word from four bytes. -/
def word (b : Bytes) : Nat :=
  ((b.getD 0 0) <<< 24) + ((b.getD 1 0) <<< 16) + ((b.getD 2 0) <<< 8) + b.getD 3 0

def chunks (fuel n : Nat) (l : List α) : List (List α) :=
  match fuel, l with
  | 0, _ => []
  | _, [] => []
  | f + 1, l => l.take n :: chunks f n (l.drop n)

/-- Extend the 16 message words to the 64-entry schedule; `wrev` holds the
words most-recent-first, so `w[i-2]` is `wrev.getD 1 0` and so on. -/
def extendW (count : Nat) (wrev : List Nat) : List Nat :=
  match count with
  | 0 => wrev.reverse
  | c + 1 =>
    let nw := (sSig1 (wrev.getD 1 0) + wrev.getD 6 0 +
               sSig0 (wrev.getD 14 0) + wrev.getD 15 0) % M32
    extendW c (nw :: wrev)

/-- One round of the compression function on the 8-tuple state. -/
def round (st : List Nat) (kw : Nat × Nat) : List Nat :=
  match st with
  | [a, b, c, d, e, f, g, h] =>
    let t1 := (h + bSig1 e + chf e f g + kw.1 + kw.2) % M32
    let t2 := (bSig0 a + maj a b c) % M32
    [(t1 + t2) % M32, a, b, c, (d + t1) % M32, e, f, g]
  | other => other

/-- Compress one 64-byte block into the running hash state. -/
def compress (hs : List Nat) (block : Bytes) : List Nat :=
  let w16 := (chunks 16 4 block).map word
  let w := extendW 48 w16.reverse
  let st := (K.zip w).foldl round hs
  (hs.zip st).map (fun p => (p.1 + p.2) % M32)

/-- SHA-256 digest (32 bytes) of a byte string. -/
def sha256 (msg : Bytes) : Bytes :=
  let final := (chunks (msg.length + 9 + 64) 64 (pad msg)).foldl compress H0
  final.flatMap (beBytes 4)

end Sha256

export Sha256 (sha256)

/-- HMAC-SHA256 (RFC 2104): keys longer than the 64-byte block are first
hashed, then zero-padded; two nested SHA-256 passes with ipad/opad. -/
def hmacSha256 (key msg : Bytes) : Bytes :=
  let k0 := if key.length > 64 then sha256 key else key
  let kp := k0 ++ List.replicate (64 - k0.length) 0
  sha256 ((kp.map (fun b => b ^^^ 0x5c)) ++ sha256 ((kp.map (fun b => b ^^^ 0x36)) ++ msg))

/-! ## Byte-string helpers mirroring the Rust `str`/`[u8]` operations -/

/-- `u8::to_ascii_lowercase`, applied byte-wise (`str::to_ascii_lowercase`). -/
def toAsciiLowercase (s : Bytes) : Bytes :=
  s.map (fun b => if 65 ≤ b ∧ b ≤ 90 then b + 32 else b)

/-- `str::eq_ignore_ascii_case`. -/
def eqIgnoreAsciiCase (a b : Bytes) : Bool :=
  toAsciiLowercase a == toAsciiLowercase b

/-- ASCII whitespace recognised by `str::trim` (the inputs in this
development are ASCII, so the Unicode cases never arise). -/
def isWsByte (b : Nat) : Bool :=
  b == 32 || b == 9 || b == 10 || b == 11 || b == 12 || b == 13

/-- `str::trim`. -/
def trimBytes (s : Bytes) : Bytes :=
  ((s.dropWhile isWsByte).reverse.dropWhile isWsByte).reverse

/-- `str::trim_matches('"')`: strip every leading and trailing quote. -/
def trimQuotes (s : Bytes) : Bytes :=
  ((s.dropWhile (· == 34)).reverse.dropWhile (· == 34)).reverse

/-- `str::split(sep)`: split at every occurrence of the separator byte,
keeping empty segments, always producing at least one segment. -/
def splitByte (sep : Nat) : Bytes → List Bytes
  | [] => [[]]
  | c :: rest =>
    if c == sep then [] :: splitByte sep rest
    else
      match splitByte sep rest with
      | seg :: segs => (c :: seg) :: segs
      | [] => [[c]]

/-- `str::strip_prefix`. -/
def stripPfx (p s : Bytes) : Option Bytes :=
  if p.isPrefixOf s then some (s.drop p.length) else none

/-- Decimal digits of a natural number (fuel-based so that it reduces in
the kernel); `natDec 0 = "0"`. -/
def natDecAux : Nat → Nat → Bytes
  | 0, _ => []
  | fuel + 1, n =>
    if n < 10 then [48 + n]
    else natDecAux fuel (n / 10) ++ [48 + n % 10]

def natDec (n : Nat) : Bytes := natDecAux (n + 1) n

/-- Decimal rendering of an `i64` (`itoa`/`Display for i64`). -/
def intDec (n : Int) : Bytes :=
  if n < 0 then 45 :: natDec n.natAbs else natDec n.natAbs

/-! ## JSON values: the model of `serde_json::Value`

Object fields are an association list in insertion order.  (The Rust
`serde_json::Map` is a `BTreeMap` ordered by key; every statement proved
here is order-independent or uses already-ordered literals, so the
difference is immaterial.)  Numbers are modelled as integers: no claim
touches floating-point values. -/

inductive Json where
  | null
  | bool (b : Bool)
  | num (n : Int)
  | str (s : Bytes)
  | arr (items : List Json)
  | obj (fields : List (Bytes × Json))
  deriving Repr

/-- `Value::get(key)` on objects / `Map::get`. -/
def jsonGet (j : Json) (k : Bytes) : Option Json :=
  match j with
  | .obj fields => (fields.find? (fun kv => kv.1 == k)).map (·.2)
  | _ => none

/-- `Value::as_str`. -/
def jsonAsStr : Json → Option Bytes
  | .str s => some s
  | _ => none

/-- `Value::as_bool`. -/
def jsonAsBool : Json → Option Bool
  | .bool b => some b
  | _ => none

/-- `Value::as_i64`. -/
def jsonAsInt : Json → Option Int
  | .num n => some n
  | _ => none

/-- `Value::as_u64`. -/
def jsonAsNat : Json → Option Nat
  | .num n => if n < 0 then none else some n.toNat
  | _ => none

/-- `Option::filter` with a boolean predicate. -/
def optFilter (p : α → Bool) : Option α → Option α
  | some a => if p a then some a else none
  | none => none

/-- `Map::contains_key`. -/
def containsKey (m : List (Bytes × Json)) (k : Bytes) : Bool :=
  m.any (fun kv => kv.1 == k)

/-- `serde_json` string escaping: quote, backslash, and control bytes are
escaped (`\"`, `\\`, `\b`, `\t`, `\n`, `\f`, `\r`, `\u00XX`); all other
bytes pass through verbatim. -/
def escapeByte (b : Nat) : Bytes :=
  if b == 34 then [92, 34]
  else if b == 92 then [92, 92]
  else if b == 8 then [92, 98]
  else if b == 9 then [92, 116]
  else if b == 10 then [92, 110]
  else if b == 12 then [92, 102]
  else if b == 13 then [92, 114]
  else if b < 32 then
    [92, 117, 48, 48, 48 + b / 16, if b % 16 < 10 then 48 + b % 16 else 87 + b % 16]
  else [b]

def escapeStr (s : Bytes) : Bytes := s.flatMap escapeByte

/-- A JSON string literal: quotes around the escaped content. -/
def quoteStr (s : Bytes) : Bytes := 34 :: escapeStr s ++ [34]

mutual

/-- `serde_json::to_string` (compact form, no added whitespace). -/
def jsonSerialize : Json → Bytes
  | .null => ascii "null"
  | .bool true => ascii "true"
  | .bool false => ascii "false"
  | .num n => intDec n
  | .str s => quoteStr s
  | .arr items => 91 :: serializeItems items ++ [93]
  | .obj fields => 123 :: serializeFields fields ++ [125]

def serializeItems : List Json → Bytes
  | [] => []
  | [j] => jsonSerialize j
  | j :: rest => jsonSerialize j ++ [44] ++ serializeItems rest

def serializeFields : List (Bytes × Json) → Bytes
  | [] => []
  | [kv] => quoteStr kv.1 ++ [58] ++ jsonSerialize kv.2
  | kv :: rest => quoteStr kv.1 ++ [58] ++ jsonSerialize kv.2 ++ [44] ++ serializeFields rest

end

/-! ### JSON parsing, the model of `serde_json::from_slice::<Value>`

A fuel-indexed recursive-descent parser over the byte string.  It covers
the JSON subset exercised by this repository: objects, arrays, strings
with the standard escapes (`\u` only below U+0080), integer numbers,
booleans and null.  Fuel only bounds nesting/iteration; string and digit
scanning are structural. -/

def skipWs (s : Bytes) : Bytes := s.dropWhile isWsByte

/-- Hex digit value (used by the string parser and by `decode_hex`). -/
def hexVal (c : Nat) : Option Nat :=
  if 48 ≤ c ∧ c ≤ 57 then some (c - 48)
  else if 97 ≤ c ∧ c ≤ 102 then some (c - 87)
  else if 65 ≤ c ∧ c ≤ 70 then some (c - 55)
  else none

/-- Parse the body of a string literal (after the opening quote), undoing
the escapes; returns the content and the rest after the closing quote. -/
def parseStringBody : Bytes → Option (Bytes × Bytes)
  | [] => none
  | c :: rest =>
    if c == 34 then some ([], rest)
    else if c == 92 then
      match rest with
      | [] => none
      | e :: rest2 =>
        if e == 34 then (parseStringBody rest2).map (fun r => (34 :: r.1, r.2))
        else if e == 92 then (parseStringBody rest2).map (fun r => (92 :: r.1, r.2))
        else if e == 47 then (parseStringBody rest2).map (fun r => (47 :: r.1, r.2))
        else if e == 98 then (parseStringBody rest2).map (fun r => (8 :: r.1, r.2))
        else if e == 116 then (parseStringBody rest2).map (fun r => (9 :: r.1, r.2))
        else if e == 110 then (parseStringBody rest2).map (fun r => (10 :: r.1, r.2))
        else if e == 102 then (parseStringBody rest2).map (fun r => (12 :: r.1, r.2))
        else if e == 114 then (parseStringBody rest2).map (fun r => (13 :: r.1, r.2))
        else if e == 117 then
          match rest2 with
          | h1 :: h2 :: h3 :: h4 :: rest6 =>
            match hexVal h1, hexVal h2, hexVal h3, hexVal h4 with
            | some a, some b, some c3, some d =>
              let cp := ((a * 16 + b) * 16 + c3) * 16 + d
              if cp < 128 then (parseStringBody rest6).map (fun r => (cp :: r.1, r.2))
              else none
            | _, _, _, _ => none
          | _ => none
        else none
    else (parseStringBody rest).map (fun r => (c :: r.1, r.2))

/-- Scan a run of decimal digits, returning their value and the rest. -/
def parseDigits (acc : Nat) : Bytes → Option (Nat × Bytes)
  | [] => some (acc, [])
  | c :: rest =>
    if 48 ≤ c ∧ c ≤ 57 then parseDigits (acc * 10 + (c - 48)) rest
    else some (acc, c :: rest)

mutual

def parseValue : Nat → Bytes → Option (Json × Bytes)
  | 0, _ => none
  | fuel + 1, s =>
    match skipWs s with
    | [] => none
    | c :: rest =>
      if c == 110 then (stripPfx (ascii "ull") rest).map (fun r => (Json.null, r))
      else if c == 116 then
        (stripPfx (ascii "rue") rest).map (fun r => (Json.bool true, r))
      else if c == 102 then
        (stripPfx (ascii "alse") rest).map (fun r => (Json.bool false, r))
      else if c == 34 then
        (parseStringBody rest).map (fun r => (Json.str r.1, r.2))
      else if c == 91 then parseItems fuel (skipWs rest) true
      else if c == 123 then parseMembers fuel (skipWs rest) true
      else if c == 45 then
        match rest with
        | [] => none
        | d :: rest2 =>
          if 48 ≤ d ∧ d ≤ 57 then
            (parseDigits (d - 48) rest2).map (fun r => (Json.num (-(r.1 : Int)), r.2))
          else none
      else if 48 ≤ c ∧ c ≤ 57 then
        (parseDigits (c - 48) rest).map (fun r => (Json.num (r.1 : Int), r.2))
      else none

/-- Array elements after `[`; `first` is true before the first element. -/
def parseItems : Nat → Bytes → Bool → Option (Json × Bytes)
  | 0, _, _ => none
  | _ + 1, 93 :: rest, true => some (.arr [], rest)
  | fuel + 1, s, _ =>
    match parseValue fuel s with
    | none => none
    | some (v, rest) =>
      match skipWs rest with
      | 44 :: rest2 =>
        match parseItems fuel (skipWs rest2) false with
        | some (.arr vs, rest3) => some (.arr (v :: vs), rest3)
        | _ => none
      | 93 :: rest2 => some (.arr [v], rest2)
      | _ => none

/-- Object members after `{`. -/
def parseMembers : Nat → Bytes → Bool → Option (Json × Bytes)
  | 0, _, _ => none
  | _ + 1, 125 :: rest, true => some (.obj [], rest)
  | fuel + 1, s, _ =>
    match s with
    | 34 :: srest =>
      match parseStringBody srest with
      | none => none
      | some (key, rest) =>
        match skipWs rest with
        | 58 :: rest2 =>
          match parseValue fuel rest2 with
          | none => none
          | some (v, rest3) =>
            match skipWs rest3 with
            | 44 :: rest4 =>
              match parseMembers fuel (skipWs rest4) false with
              | some (.obj kvs, rest5) => some (.obj ((key, v) :: kvs), rest5)
              | _ => none
            | 125 :: rest4 => some (.obj [(key, v)], rest4)
            | _ => none
        | _ => none
    | _ => none

end

/-- `serde_json::from_slice::<Value>`: parse requiring only trailing
whitespace after the value. -/
def fromSliceValue (bs : Bytes) : Option Json :=
  match parseValue (bs.length + 40) bs with
  | some (j, rest) => if (skipWs rest).isEmpty then some j else none
  | none => none

/-- All bytes of the string are genuine byte values (`Vec<u8>` content). -/
def validBytes (bs : Bytes) : Prop := ∀ b ∈ bs, b < 256

/-- The position after a serialized number: nothing that could extend the
digit run. -/
def digitBoundary : Bytes → Prop
  | [] => True
  | c :: _ => ¬(48 ≤ c ∧ c ≤ 57)

/-! ## Base64 (the `base64` crate engines used by the sources) -/

/-- Encode three bytes per four symbols; the final one- and two-byte
groups produce two and three symbols with zero trailing bits. -/
def b64EncodeCore (alpha : Nat → Nat) : Bytes → Bytes
  | b1 :: b2 :: b3 :: rest =>
    alpha (b1 / 4) :: alpha ((b1 % 4) * 16 + b2 / 16) ::
    alpha ((b2 % 16) * 4 + b3 / 64) :: alpha (b3 % 64) :: b64EncodeCore alpha rest
  | [b1, b2] => [alpha (b1 / 4), alpha ((b1 % 4) * 16 + b2 / 16), alpha ((b2 % 16) * 4)]
  | [b1] => [alpha (b1 / 4), alpha ((b1 % 4) * 16)]
  | [] => []

/-- Decode four symbols per three bytes; the crate rejects non-zero
trailing bits in the final symbol, as does this model. -/
def b64DecodeCore (alphaInv : Nat → Option Nat) : Bytes → Option Bytes
  | c1 :: c2 :: c3 :: c4 :: rest =>
    match alphaInv c1, alphaInv c2, alphaInv c3, alphaInv c4,
          b64DecodeCore alphaInv rest with
    | some v1, some v2, some v3, some v4, some tl =>
      some ((v1 * 4 + v2 / 16) :: ((v2 % 16) * 16 + v3 / 4) :: ((v3 % 4) * 64 + v4) :: tl)
    | _, _, _, _, _ => none
  | [c1, c2, c3] =>
    match alphaInv c1, alphaInv c2, alphaInv c3 with
    | some v1, some v2, some v3 =>
      if v3 % 4 == 0 then some [v1 * 4 + v2 / 16, (v2 % 16) * 16 + v3 / 4] else none
    | _, _, _ => none
  | [c1, c2] =>
    match alphaInv c1, alphaInv c2 with
    | some v1, some v2 => if v2 % 16 == 0 then some [v1 * 4 + v2 / 16] else none
    | _, _ => none
  | [_] => none
  | [] => some []

/-- The URL-safe alphabet (`A-Z a-z 0-9 - _`). -/
def urlAlpha (v : Nat) : Nat :=
  if v < 26 then 65 + v
  else if v < 52 then 71 + v
  else if v < 62 then v - 4
  else if v == 62 then 45
  else 95

def urlAlphaInv (c : Nat) : Option Nat :=
  if 65 ≤ c ∧ c ≤ 90 then some (c - 65)
  else if 97 ≤ c ∧ c ≤ 122 then some (c - 71)
  else if 48 ≤ c ∧ c ≤ 57 then some (c + 4)
  else if c == 45 then some 62
  else if c == 95 then some 63
  else none

/-- The standard alphabet (`A-Z a-z 0-9 + /`). -/
def stdAlpha (v : Nat) : Nat :=
  if v < 26 then 65 + v
  else if v < 52 then 71 + v
  else if v < 62 then v - 4
  else if v == 62 then 43
  else 47

def stdAlphaInv (c : Nat) : Option Nat :=
  if 65 ≤ c ∧ c ≤ 90 then some (c - 65)
  else if 97 ≤ c ∧ c ≤ 122 then some (c - 71)
  else if 48 ≤ c ∧ c ≤ 57 then some (c + 4)
  else if c == 43 then some 62
  else if c == 47 then some 63
  else none

/-- `URL_SAFE_NO_PAD.encode`. -/
def b64UrlEncode (bs : Bytes) : Bytes := b64EncodeCore urlAlpha bs

/-- `URL_SAFE_NO_PAD.decode`. -/
def b64UrlDecode (s : Bytes) : Option Bytes := b64DecodeCore urlAlphaInv s

/-- `STANDARD.encode` (with `=` padding). -/
def b64StdEncode (bs : Bytes) : Bytes :=
  let core := b64EncodeCore stdAlpha bs
  core ++ List.replicate ((4 - core.length % 4) % 4) 61

/-- `STANDARD.decode`: requires canonical `=` padding to a multiple of
four symbols, then decodes the body. -/
def b64StdDecode (s : Bytes) : Option Bytes :=
  if s.length % 4 != 0 then none
  else
    let body := (s.reverse.dropWhile (· == 61)).reverse
    if (s.length - body.length ≤ 2 : Bool) &&
       (body.length % 4 != 0 || body.length == s.length)
    then b64DecodeCore stdAlphaInv body
    else none

/-- Lowercase hex rendering of a byte string (`hex(...)` in the spec). -/
def hexEncode (bs : Bytes) : Bytes :=
  bs.flatMap (fun b =>
    [if b / 16 % 16 < 10 then 48 + b / 16 % 16 else 87 + b / 16 % 16,
     if b % 16 < 10 then 48 + b % 16 else 87 + b % 16])

/-! ## `greentic-messaging-tester/src/values.rs` -/

inductive HttpMode where
  | Mock
  | Real
  deriving DecidableEq, Repr

/-- The Values bundle (`values.rs`): config/secrets/to maps of JSON
values, the optional transport-mode string, and the state map. -/
structure Values where
  config : List (Bytes × Json)
  secrets : List (Bytes × Json)
  toMap : List (Bytes × Json)
  http : Option Bytes
  state : List (Bytes × Json)

/-- `Values::http_mode`: lowercase the `http` field (default `"mock"`);
`"real"` selects real transport, anything else the mock. -/
def Values.http_mode (v : Values) : HttpMode :=
  if toAsciiLowercase (v.http.getD (ascii "mock")) == ascii "real"
  then HttpMode.Real else HttpMode.Mock

/-- The per-value materialization inside `Values::secret_bytes`: string
secrets become their bytes verbatim, any other JSON value is
re-serialized (`serde_json::to_string`) and those bytes used. -/
def secretValueBytes : Json → Bytes
  | .str s => s
  | other => jsonSerialize other

/-- `Values::secret_bytes`. -/
def Values.secret_bytes (v : Values) : List (Bytes × Bytes) :=
  v.secrets.map (fun kv => (kv.1, secretValueBytes kv.2))

/-! ## `greentic-messaging-tester/src/requirements.rs` -/

structure FieldRequirement where
  key : Bytes

structure RequirementGroup where
  required : List FieldRequirement

structure ToRequirement where
  shape : List (Bytes × Json)

structure Requirements where
  provider : Bytes
  config : RequirementGroup
  secrets : RequirementGroup
  toReq : ToRequirement

structure ValidationReport where
  missing_config : List Bytes
  missing_secrets : List Bytes
  missing_to : List Bytes
  deriving DecidableEq, Repr

def ValidationReport.is_empty (r : ValidationReport) : Bool :=
  r.missing_config.isEmpty && r.missing_secrets.isEmpty && r.missing_to.isEmpty

/-- `Requirements::validate`: walk the three required-key collections,
collecting every key missing from the corresponding Values map. -/
def Requirements.validate (r : Requirements) (v : Values) : ValidationReport :=
  { missing_config :=
      (r.config.required.filter (fun f => !containsKey v.config f.key)).map (·.key)
    missing_secrets :=
      (r.secrets.required.filter (fun f => !containsKey v.secrets f.key)).map (·.key)
    missing_to :=
      (r.toReq.shape.map (·.1)).filter (fun k => !containsKey v.toMap k) }

/-! ## `greentic-messaging-tester/src/main.rs`: the send pipeline

`handle_send` validates, checks the message arguments, then drives the
module through `render_plan` → host-side `encode_from_render_plan` →
`send_payload`.  The model keeps every gate and error of the source in
order and instruments which pipeline stages actually run.  The module
and the host-side encoder (crate `greentic-messaging-planned`, external
to this repository) are parameters: `planResponse` is the parsed JSON the
module's `render_plan` returned, `encodeResult` the encoder's result and
`sendResponse` the parsed `send_payload` result.  Loading of the values
file, the card file and the wasm module is modelled as already done:
`card` is the parsed card when `--card` was given. -/

inductive PipeStep where
  | renderPlan
  | encode
  | sendPayload
  deriving DecidableEq, Repr

structure ProviderPayloadV1 where
  content_type : Bytes
  body_b64 : Bytes
  metadata : List (Bytes × Bytes)
  deriving DecidableEq, Repr

structure EncodeResult where
  ok : Bool
  error : Option Bytes
  payload : Option ProviderPayloadV1

structure SendPayloadResultV1 where
  ok : Bool
  message : Option Bytes
  retryable : Bool
  deriving DecidableEq, Repr

structure ModuleBehavior where
  planResponse : Json
  encodeResult : EncodeResult
  sendResponse : SendPayloadResultV1

inductive CliError where
  | validation (report : ValidationReport)
  | providerOp (msg : Bytes)

/-- `ensure_ok`: fail with `"<op> reported failure"` exactly when the
value carries an `ok` field that is boolean `false`. -/
def ensure_ok (value : Json) (op : Bytes) : Except Bytes Unit :=
  match (jsonGet value (ascii "ok")).bind jsonAsBool with
  | some false => .error (op ++ ascii " reported failure")
  | _ => .ok ()

/-- `handle_send` after loading: returns the outcome together with the
ordered list of pipeline stages that were reached. -/
def handle_send (req : Requirements) (values : Values)
    (text : Option Bytes) (card : Option Json) (toDest : Option Bytes)
    (m : ModuleBehavior) : Except CliError Unit × List PipeStep :=
  let report := req.validate values
  if !report.is_empty then (.error (.validation report), [])
  else if text.isNone && card.isNone then
    (.error (.providerOp (ascii "send requires --text or --card")), [])
  else if (toDest.map (fun d => (trimBytes d).isEmpty)).getD false then
    (.error (.providerOp (ascii "--to cannot be empty")), [])
  else
    let plan_value := m.planResponse
    match ensure_ok plan_value (ascii "render_plan") with
    | .error e => (.error (.providerOp e), [.renderPlan])
    | .ok _ =>
      match ((jsonGet plan_value (ascii "plan")).bind
              (fun p => jsonGet p (ascii "plan_json"))).bind jsonAsStr with
      | none =>
        (.error (.providerOp (ascii "render_plan missing plan_json")), [.renderPlan])
      | some _plan_json =>
        let er := m.encodeResult
        if !er.ok then
          (.error (.providerOp (ascii "encode_from_render_plan failed: " ++
                                er.error.getD (ascii "unknown"))),
           [.renderPlan, .encode])
        else
          match er.payload with
          | none =>
            (.error (.providerOp (ascii "encode_from_render_plan missing payload")),
             [.renderPlan, .encode])
          | some _payload =>
            let sr := m.sendResponse
            if !sr.ok then
              (.error (.providerOp (ascii "send_payload failed: " ++
                                    sr.message.getD (ascii "unknown error"))),
               [.renderPlan, .encode, .sendPayload])
            else (.ok (), [.renderPlan, .encode, .sendPayload])

/-! ## `main.rs`: webhook signature verification -/

/-- `find_header_value`: first header whose name matches
case-insensitively. -/
def find_header_value (headers : List (Bytes × Bytes)) (key : Bytes) : Option Bytes :=
  (headers.find? (fun h => eqIgnoreAsciiCase h.1 key)).map (·.2)

/-- `u8::from_str_radix(s, 16)`: an optional `+` sign (never `-`, since
`u8` is unsigned), then at least one hex digit; the value must fit in a
`u8`. -/
def from_str_radix16_u8 (s : Bytes) : Option Nat :=
  let core : Bytes → Option Nat := fun digits =>
    match digits with
    | [] => none
    | _ =>
      digits.foldl (fun acc c =>
        match acc, hexVal c with
        | some a, some d => if a * 16 + d ≤ 255 then some (a * 16 + d) else none
        | _, _ => none) (some 0)
  match s with
  | 43 :: rest => core rest
  | _ => core s

/-- `decode_hex`: reject odd length, then parse two-byte chunks. -/
def decode_hex (input : Bytes) : Option Bytes :=
  if input.length % 2 != 0 then none
  else
    let normalized := trimBytes input
    (Sha256.chunks (normalized.length + 1) 2 normalized).foldr
      (fun chunk acc =>
        match from_str_radix16_u8 chunk, acc with
        | some b, some tl => some (b :: tl)
        | _, _ => none) (some [])

/-- The header lookup of `verify_webex_signature`: `x-webex-signature`
first, falling back to `x-spark-signature`. -/
def webexSigHeader (headers : List (Bytes × Bytes)) : Option Bytes :=
  (find_header_value headers (ascii "x-webex-signature")).orElse
    (fun _ => find_header_value headers (ascii "x-spark-signature"))

/-- The hex extraction of `verify_webex_signature`: the first
comma-separated segment whose trimmed form starts with `SHA-256=`,
trimmed again after the prefix and stripped of surrounding quotes. -/
def webexSigHex (header_value : Bytes) : Option Bytes :=
  ((splitByte 44 header_value).findSome?
    (fun seg => (stripPfx (ascii "SHA-256=") (trimBytes seg)).map trimBytes)).map
    trimQuotes

/-- `verify_webex_signature`: locate the signature header, take its
first `SHA-256=`-prefixed comma segment, strip quotes, hex-decode, and
compare with HMAC-SHA256 of the body under the secret.  (The
`Hmac::new_from_slice` failure branch of the source is unreachable:
HMAC accepts keys of any length.) -/
def verify_webex_signature (secret : Bytes) (headers : List (Bytes × Bytes))
    (body : Bytes) : Bool :=
  match webexSigHeader headers with
  | none => false
  | some header_value =>
    match webexSigHex header_value with
    | none => false
    | some hex =>
      match decode_hex hex with
      | none => false
      | some sig_bytes => hmacSha256 secret body == sig_bytes

/-! ## `provider-tests/src/harness/mod.rs`: the test host -/

structure HttpRequest where
  method : Bytes
  url : Bytes
  headers : List (Bytes × Bytes)
  body : Option Bytes
  deriving DecidableEq, Repr

structure HttpResponse where
  status : Nat
  headers : List (Bytes × Bytes)
  body : Option Bytes
  deriving DecidableEq, Repr

structure HostError where
  code : Bytes
  message : Bytes
  deriving DecidableEq, Repr

/-- The host state wired into a module instance: the secrets map and the
last transport request seen (`TestHostState`; the wasm plumbing fields
carry no observable state of their own). -/
structure TestHostState where
  secrets : List (Bytes × Bytes)
  last_request : Option HttpRequest
  deriving DecidableEq, Repr

structure StateStoreError where
  code : Bytes
  message : Bytes
  deriving DecidableEq, Repr

/-- The fault every durable-state operation returns. -/
def stateUnavailable : StateStoreError :=
  { code := ascii "unimplemented"
    message := ascii "state store not available in universal tests" }

/-- `state_store::StateStoreHost::read` for `TestHostState`. -/
def state_store_read (st : TestHostState) (_key : κ) (_ctx : Option τ) :
    Except StateStoreError Bytes × TestHostState :=
  (.error stateUnavailable, st)

/-- `state_store::StateStoreHost::write` for `TestHostState`. -/
def state_store_write (st : TestHostState) (_key : κ) (_bytes : Bytes)
    (_ctx : Option τ) : Except StateStoreError Unit × TestHostState :=
  (.error stateUnavailable, st)

/-- `state_store::StateStoreHost::delete` for `TestHostState`. -/
def state_store_delete (st : TestHostState) (_key : κ) (_ctx : Option τ) :
    Except StateStoreError Unit × TestHostState :=
  (.error stateUnavailable, st)

/-- `secrets_store::SecretsStoreHostV1_1::get`. -/
def secrets_store_get (st : TestHostState) (key : Bytes) : Option Bytes :=
  (st.secrets.find? (fun kv => kv.1 == key)).map (·.2)

/-- `default_http_handler`: the canned success answer, status 200 with
JSON body `{"status":"ok"}` and no headers. -/
def default_http_handler (_req : HttpRequest) : HttpResponse :=
  { status := 200
    headers := []
    body := some (jsonSerialize (Json.obj [(ascii "status", Json.str (ascii "ok"))])) }

/-! ## The HTTP mock controller

Modelled from the spec: the FIFO Mock Response Queue and ordered call
history of the HTTP Mock Controller (spec §3 "Mock Response Queue" and
§4.3) live in `greentic-messaging-tester/src/http_mock.rs`, which is not
among the given sources; only its callers and the `default_http_handler`
fallback (harness/mod.rs) are.  Per the spec: `queue_response` appends,
`clear` empties, each transport call pops the head if non-empty, else
synthesizes the default success response, and appends the
request/response pair to the history. -/

structure CallRecord where
  request : HttpRequest
  response : HttpResponse
  deriving DecidableEq, Repr

structure MockState where
  queue : List (Nat × Bytes)
  history : List CallRecord
  deriving DecidableEq, Repr

/-- Modelled from the spec: `queue_response(status, body)` appends to the
FIFO queue. -/
def queue_response (st : MockState) (status : Nat) (body : Bytes) : MockState :=
  { st with queue := st.queue ++ [(status, body)] }

/-- Modelled from the spec: `clear()` empties the queue. -/
def clear_queue (st : MockState) : MockState := { st with queue := [] }

/-- Modelled from the spec: a transport call pops the head of the queue
if non-empty, else falls back to `default_http_handler`; the pair is
recorded in issuance order. -/
def mock_send (st : MockState) (req : HttpRequest) : HttpResponse × MockState :=
  match st.queue with
  | (status, body) :: rest =>
    let resp : HttpResponse := { status := status, headers := [], body := some body }
    (resp, { queue := rest, history := st.history ++ [⟨req, resp⟩] })
  | [] =>
    let resp := default_http_handler req
    (resp, { queue := [], history := st.history ++ [⟨req, resp⟩] })

/-! ## `components/messaging-provider-webex/src/lib.rs`

The component runs against host capabilities (secret lookup, outbound
transport), modelled by `GuestHost`; in tests these are the harness's
secrets map and mock controller.  The wit/serde framing of operation
inputs and outputs is elided: operations take and return the structured
DTO values. -/

namespace Webex

open GMP

def PROVIDER_TYPE : Bytes := ascii "messaging.webex.bot"

def DEFAULT_API_BASE : Bytes := ascii "https://webexapis.com/v1"

def DEFAULT_TOKEN_KEY : Bytes := ascii "WEBEX_BOT_TOKEN"

structure GuestHost where
  secrets : Bytes → Option Bytes
  httpSend : HttpRequest → Except HostError HttpResponse

structure ProviderConfig where
  default_room_id : Option Bytes
  default_to_person_email : Option Bytes
  api_base_url : Option Bytes

/-- The all-`None` configuration, which `load_config(&json!({}))`
produces. -/
def defaultProviderConfig : ProviderConfig :=
  { default_room_id := none, default_to_person_email := none, api_base_url := none }

structure Attachment where
  mime_type : Bytes
  url : Bytes
  name : Option Bytes
  size_bytes : Option Nat
  deriving DecidableEq, Repr

structure Actor where
  id : Bytes
  kind : Option Bytes
  deriving DecidableEq, Repr

structure Destination where
  id : Bytes
  kind : Option Bytes
  deriving DecidableEq, Repr

structure TenantCtxV where
  env : Bytes
  tenant : Bytes
  deriving DecidableEq, Repr

structure ChannelMessageEnvelope where
  id : Bytes
  tenant : TenantCtxV
  channel : Bytes
  session_id : Bytes
  reply_scope : Option Bytes
  fromActor : Option Actor
  toDest : List Destination
  correlation_id : Option Bytes
  text : Option Bytes
  attachments : List Attachment
  metadata : List (Bytes × Bytes)
  deriving DecidableEq, Repr

structure HttpInV1 where
  method : Bytes
  path : Bytes
  query : Option Bytes
  headers : List (Bytes × Bytes)
  body_b64 : Bytes
  route_hint : Option Bytes
  binding_id : Option Bytes
  deriving DecidableEq, Repr

structure HttpOutV1 where
  status : Nat
  headers : List (Bytes × Bytes)
  body_b64 : Bytes
  events : List ChannelMessageEnvelope
  deriving DecidableEq, Repr

structure IngestOutcome where
  envelope : ChannelMessageEnvelope
  status : Nat
  error : Option Bytes

structure MessageDetails where
  markdown : Option Bytes
  text : Option Bytes
  room_id : Option Bytes
  person_email : Option Bytes
  person_id : Option Bytes
  attachments : List Attachment

/-- `format_webex_error`. -/
def format_webex_error (status : Nat) (body : Bytes) : Bytes :=
  let trimmed := trimBytes body
  if trimmed.isEmpty then ascii "webex returned status " ++ natDec status
  else ascii "webex returned status " ++ natDec status ++ ascii " body=" ++ trimmed

/-- `get_secret_string`.  (The harness secrets store never faults, and
byte strings model Rust strings directly, so the store-error and
invalid-UTF-8 branches of the source cannot arise here.) -/
def get_secret_string (host : GuestHost) (key : Bytes) : Except Bytes Bytes :=
  match host.secrets key with
  | some bytes => .ok bytes
  | none => .error (ascii "missing secret: " ++ key)

/-- `build_webex_attachment`. -/
def build_webex_attachment (message_id : Bytes) (idx : Nat) (value : Json) :
    Option Attachment :=
  let mime_type := ((jsonGet value (ascii "contentType")).bind jsonAsStr).getD
    (ascii "application/octet-stream")
  let url := (((jsonGet value (ascii "contentUrl")).bind jsonAsStr).orElse
    (fun _ => ((jsonGet value (ascii "content")).bind
      (fun c => jsonGet c (ascii "url"))).bind jsonAsStr)).getD
    (ascii "webex:" ++ message_id ++ ascii ":attachment:" ++ natDec idx)
  let nm := ((jsonGet value (ascii "name")).orElse
    (fun _ => jsonGet value (ascii "displayName"))).bind jsonAsStr
  let size_bytes := (jsonGet value (ascii "size")).bind jsonAsNat |>.orElse
    (fun _ => (jsonGet value (ascii "sizeBytes")).bind jsonAsNat)
  some { mime_type, url, name := nm, size_bytes }

/-- `convert_webex_attachments`. -/
def convert_webex_attachments (message_id : Bytes) (data : Json) : List Attachment :=
  match jsonGet data (ascii "attachments") with
  | some (.arr array) =>
    array.enum.filterMap (fun p => build_webex_attachment message_id p.1 p.2)
  | _ => []

/-- `fetch_message_details`: GET the message, reject non-2xx statuses,
parse the JSON body.  (The serde error text in the invalid-JSON branch
is elided.) -/
def fetch_message_details (host : GuestHost) (message_id api_base token : Bytes) :
    Except Bytes MessageDetails :=
  let url := api_base ++ ascii "/messages/" ++ message_id
  let request : HttpRequest :=
    { method := ascii "GET", url := url
      headers := [(ascii "Authorization", ascii "Bearer " ++ token)], body := none }
  match host.httpSend request with
  | .error err => .error (ascii "transport error: " ++ err.message)
  | .ok resp =>
    if resp.status < 200 || resp.status ≥ 300 then
      .error (format_webex_error resp.status (resp.body.getD []))
    else
      match fromSliceValue (resp.body.getD []) with
      | none => .error (ascii "invalid message JSON: ")
      | some message_json =>
        let data := (jsonGet message_json (ascii "result")).getD message_json
        .ok { markdown := (jsonGet data (ascii "markdown")).bind jsonAsStr
              text := (jsonGet data (ascii "text")).bind jsonAsStr
              room_id := (jsonGet data (ascii "roomId")).bind jsonAsStr
              person_email := (jsonGet data (ascii "personEmail")).bind jsonAsStr
              person_id := (jsonGet data (ascii "personId")).bind jsonAsStr
              attachments := convert_webex_attachments message_id data }

/-- `pick_sender`. -/
def pick_sender (person_email person_id : Option Bytes) : Option Actor :=
  match person_email with
  | some email => some { id := email, kind := some (ascii "person") }
  | none =>
    match person_id with
    | some id => some { id := id, kind := some (ascii "person") }
    | none => none

/-- `build_webhook_metadata`. -/
def build_webhook_metadata (resource event : Bytes)
    (message_id room_id person_email person_id error : Option Bytes)
    (attachment_types : Option Bytes) (status : Option Nat) :
    List (Bytes × Bytes) :=
  [(ascii "webex.resource", resource), (ascii "webex.event", event)] ++
  (match message_id with | some m => [(ascii "webex.messageId", m)] | none => []) ++
  (match room_id with | some r => [(ascii "webex.roomId", r)] | none => []) ++
  (match person_email with | some e => [(ascii "webex.personEmail", e)] | none => []) ++
  (match person_id with | some i => [(ascii "webex.personId", i)] | none => []) ++
  (match error with | some e => [(ascii "webex.ingestError", e)] | none => []) ++
  (match status with | some s => [(ascii "webex.fetchStatus", natDec s)] | none => []) ++
  [(ascii "webex.hasAttachments",
    if attachment_types.isSome then ascii "true" else ascii "false")] ++
  (match attachment_types with
   | some t => [(ascii "webex.attachmentTypes", t)] | none => [])

/-- `build_webhook_envelope`. -/
def build_webhook_envelope (text session_id : Bytes) (from? : Option Actor)
    (metadata : List (Bytes × Bytes)) (attachments : List Attachment)
    (message_id : Option Bytes) : ChannelMessageEnvelope :=
  { id := match message_id with
          | some id => ascii "webex-" ++ id
          | none => ascii "webex-ingress-" ++ session_id
    tenant := { env := ascii "default", tenant := ascii "default" }
    channel := ascii "webex"
    session_id := session_id
    reply_scope := none
    fromActor := from?
    toDest := []
    correlation_id := none
    text := some text
    attachments := attachments
    metadata := metadata }

/-- `str::trim_end_matches('/')`. -/
def trimEndSlashes (s : Bytes) : Bytes := (s.reverse.dropWhile (· == 47)).reverse

/-- `Vec::join(",")` for attachment mime types. -/
def joinComma : List Bytes → Bytes
  | [] => []
  | [x] => x
  | x :: rest => x ++ [44] ++ joinComma rest

/-- `handle_webhook_event`: for a created-message webhook, fetch the
message details and build the canonical envelope; a fetch failure
produces the 502 outcome with the error recorded in the metadata, a
missing token the 500 outcome; any other event is normalized directly
with status 200. -/
def handle_webhook_event (host : GuestHost) (body : Json) (cfg : ProviderConfig) :
    IngestOutcome :=
  let resource := ((jsonGet body (ascii "resource")).bind jsonAsStr).getD []
  let event := ((jsonGet body (ascii "event")).bind jsonAsStr).getD []
  let data := (jsonGet body (ascii "data")).getD Json.null
  let message_id := (jsonGet data (ascii "id")).bind jsonAsStr
  let webhook_room := (jsonGet data (ascii "roomId")).bind jsonAsStr
  let webhook_person_email := (jsonGet data (ascii "personEmail")).bind jsonAsStr
  let webhook_person_id := (jsonGet data (ascii "personId")).bind jsonAsStr
  let fallthrough : IngestOutcome :=
    let text := (((jsonGet body (ascii "text")).orElse
      (fun _ => jsonGet body (ascii "markdown"))).bind jsonAsStr).getD []
    let session_id := webhook_room.getD (message_id.getD (ascii "webex"))
    let sender := pick_sender webhook_person_email webhook_person_id
    let metadata := build_webhook_metadata resource event message_id webhook_room
      webhook_person_email webhook_person_id none none (some 200)
    { envelope := build_webhook_envelope text session_id sender metadata [] message_id
      status := 200, error := none }
  match message_id with
  | some mid =>
    if resource == ascii "messages" && event == ascii "created" then
      let api_base := trimEndSlashes
        ((optFilter (fun s => !(trimBytes s).isEmpty) cfg.api_base_url).getD DEFAULT_API_BASE)
      match get_secret_string host DEFAULT_TOKEN_KEY with
      | .ok token =>
        match fetch_message_details host mid api_base token with
        | .ok details =>
          let session_id := (details.room_id.orElse (fun _ => webhook_room)).getD mid
          let sender := (pick_sender details.person_email details.person_id).orElse
            (fun _ => pick_sender webhook_person_email webhook_person_id)
          let text := ((optFilter (fun v => !(trimBytes v).isEmpty)
            details.markdown).orElse (fun _ => details.text)).getD []
          let attachment_types := if details.attachments.isEmpty then none
            else some (joinComma (details.attachments.map (·.mime_type)))
          let metadata := build_webhook_metadata resource event (some mid)
            (details.room_id.orElse (fun _ => webhook_room))
            (details.person_email.orElse (fun _ => webhook_person_email))
            (details.person_id.orElse (fun _ => webhook_person_id))
            none attachment_types (some 200)
          { envelope := build_webhook_envelope text session_id sender metadata
              details.attachments (some mid)
            status := 200, error := none }
        | .error err =>
          let session_id := webhook_room.getD mid
          let sender := pick_sender webhook_person_email webhook_person_id
          let metadata := build_webhook_metadata resource event (some mid) webhook_room
            webhook_person_email webhook_person_id (some err) none (some 502)
          { envelope := build_webhook_envelope [] session_id sender metadata [] (some mid)
            status := 502, error := some err }
      | .error err =>
        let session_id := webhook_room.getD mid
        let sender := pick_sender webhook_person_email webhook_person_id
        let metadata := build_webhook_metadata resource event (some mid) webhook_room
          webhook_person_email webhook_person_id (some err) none (some 500)
        { envelope := build_webhook_envelope [] session_id sender metadata [] (some mid)
          status := 500, error := some err }
    else fallthrough
  | none => fallthrough

/-- `http_out_error` (the serde/base64 error text is elided). -/
def http_out_error (status : Nat) (message : Bytes) : HttpOutV1 :=
  { status := status, headers := [], body_b64 := b64StdEncode message, events := [] }

/-- `ingest_http`: decode the base64 body, parse it as JSON (`Null` on
parse failure), run the webhook handler under the default config
(`load_config(&json!({}))`), and wrap the outcome.  The normalized body
object is written in `BTreeMap` key order (`error`, `event`, `ok`), as
`serde_json` serializes it. -/
def ingest_http (host : GuestHost) (request : HttpInV1) : HttpOutV1 :=
  match b64StdDecode request.body_b64 with
  | none => http_out_error 400 (ascii "invalid body encoding: ")
  | some body_bytes =>
    let body_val := (fromSliceValue body_bytes).getD Json.null
    let outcome := handle_webhook_event host body_val defaultProviderConfig
    let normalized := Json.obj
      ((match outcome.error with
        | some err => [(ascii "error", Json.str err)]
        | none => []) ++
       [(ascii "event", body_val), (ascii "ok", Json.bool outcome.error.isNone)])
    { status := outcome.status
      headers := []
      body_b64 := b64StdEncode (jsonSerialize normalized)
      events := [outcome.envelope] }

structure SendPayloadInV1 where
  provider_type : Bytes
  tenant_id : Option Bytes
  auth_user : Option Bytes
  payload : ProviderPayloadV1
  deriving DecidableEq, Repr

/-- `send_payload_error` (as the structured result it serializes). -/
def send_payload_error (message : Bytes) (retryable : Bool) : SendPayloadResultV1 :=
  { ok := false, message := some message, retryable := retryable }

/-- `send_payload`, which first checks the payload's `provider_type`
against the module's `PROVIDER_TYPE` and rejects on mismatch before
anything else.  `rest` stands for the remainder of the source function
(payload decode, envelope checks and the transport call, lib.rs lines
1009–1132); it is a parameter so the theorems hold for every possible
behaviour of that remainder, and it reports the transport calls it
makes alongside its result. -/
def send_payload (send_in : SendPayloadInV1)
    (rest : SendPayloadInV1 → SendPayloadResultV1 × List HttpRequest) :
    SendPayloadResultV1 × List HttpRequest :=
  if send_in.provider_type != PROVIDER_TYPE then
    (send_payload_error (ascii "provider type mismatch") false, [])
  else rest send_in

end Webex

/-! ## `components/messaging-provider-webchat/src/directline/jwt.rs`

`Utc::now()` is a parameter (`now`, a Unix timestamp in seconds);
`chrono` timestamp arithmetic on whole seconds is exact, so
`(now + Duration::seconds(TTL)).timestamp() = now.timestamp() + TTL`. -/

namespace Webchat

open GMP

def TTL_SECONDS : Int := 1800

def ISS : Bytes := ascii "greentic.webchat"

def AUD : Bytes := ascii "directline"

structure DirectLineContext where
  env : Bytes
  tenant : Bytes
  team : Option Bytes
  deriving DecidableEq, Repr

structure TokenClaims where
  iss : Bytes
  aud : Bytes
  sub : Bytes
  iat : Int
  nbf : Int
  exp : Int
  ctx : DirectLineContext
  conv : Option Bytes
  deriving DecidableEq, Repr

/-- `JwtError` (the `serde_json`/`base64` error payloads are elided). -/
inductive JwtError where
  | invalidFormat
  | invalidSignature
  | expired
  | notYetValid
  | jsonErr
  | base64Err
  deriving DecidableEq, Repr

/-- Serde serialization of `DirectLineContext` (declared field order;
`team: Option<String>` serializes as `null` when absent). -/
def contextJson (c : DirectLineContext) : Json :=
  .obj [(ascii "env", .str c.env), (ascii "tenant", .str c.tenant),
        (ascii "team", match c.team with | some t => .str t | none => .null)]

/-- Serde serialization of `TokenClaims` (declared field order; `conv`
is skipped when `None` via `skip_serializing_if`). -/
def claimsJson (c : TokenClaims) : Json :=
  .obj ([(ascii "iss", .str c.iss), (ascii "aud", .str c.aud),
         (ascii "sub", .str c.sub), (ascii "iat", .num c.iat),
         (ascii "nbf", .num c.nbf), (ascii "exp", .num c.exp),
         (ascii "ctx", contextJson c.ctx)] ++
        (match c.conv with
         | some v => [(ascii "conv", .str v)]
         | none => []))

/-- `json!({"alg":"HS256","typ":"JWT"})` (BTreeMap order = written order). -/
def headerJson : Json :=
  .obj [(ascii "alg", .str (ascii "HS256")), (ascii "typ", .str (ascii "JWT"))]

/-- `encode_segment`: serialize to JSON, base64url-encode without pad. -/
def encode_segment (j : Json) : Bytes := b64UrlEncode (jsonSerialize j)

/-- `issue_token`: HS256 JWT over the serialized claims; returns the
token and its expiry. -/
def issue_token (secret : Bytes) (ctx : DirectLineContext) (sub : Bytes)
    (conv : Option Bytes) (now : Int) : Bytes × Int :=
  let iat := now
  let exp := now + TTL_SECONDS
  let claims : TokenClaims :=
    { iss := ISS, aud := AUD, sub := sub, iat := iat, nbf := iat, exp := exp
      ctx := ctx, conv := conv }
  let header_enc := encode_segment headerJson
  let payload_enc := encode_segment (claimsJson claims)
  let signature := hmacSha256 secret (header_enc ++ [46] ++ payload_enc)
  (header_enc ++ [46] ++ payload_enc ++ [46] ++ b64UrlEncode signature, exp)

/-- Field extraction of `TokenClaims` from a parsed JSON value (serde
derive semantics: `Option` fields accept `null` or absence, unknown
fields are ignored). -/
def jsonOptStr (j : Json) (k : Bytes) : Option (Option Bytes) :=
  match jsonGet j k with
  | none => some none
  | some .null => some none
  | some (.str s) => some (some s)
  | some _ => none

def jsonToContext (j : Json) : Option DirectLineContext := do
  let env ← (jsonGet j (ascii "env")).bind jsonAsStr
  let tenant ← (jsonGet j (ascii "tenant")).bind jsonAsStr
  let team ← jsonOptStr j (ascii "team")
  pure { env := env, tenant := tenant, team := team }

def jsonToClaims (j : Json) : Option TokenClaims := do
  let iss ← (jsonGet j (ascii "iss")).bind jsonAsStr
  let aud ← (jsonGet j (ascii "aud")).bind jsonAsStr
  let sub ← (jsonGet j (ascii "sub")).bind jsonAsStr
  let iat ← (jsonGet j (ascii "iat")).bind jsonAsInt
  let nbf ← (jsonGet j (ascii "nbf")).bind jsonAsInt
  let expv ← (jsonGet j (ascii "exp")).bind jsonAsInt
  let ctx ← (jsonGet j (ascii "ctx")).bind jsonToContext
  let conv ← jsonOptStr j (ascii "conv")
  pure { iss := iss, aud := aud, sub := sub, iat := iat, nbf := nbf
         exp := expv, ctx := ctx, conv := conv }

/-- `verify_token`: exactly three dot-separated segments, recompute and
compare the HMAC, then decode the payload and check the time window. -/
def verify_token (secret token : Bytes) (now : Int) : Except JwtError TokenClaims :=
  match splitByte 46 token with
  | [header, payload, signature] =>
    let expected := hmacSha256 secret (header ++ [46] ++ payload)
    match b64UrlDecode signature with
    | none => .error .base64Err
    | some decoded_sig =>
      if expected != decoded_sig then .error .invalidSignature
      else
        match b64UrlDecode payload with
        | none => .error .base64Err
        | some payload_bytes =>
          match (fromSliceValue payload_bytes).bind jsonToClaims with
          | none => .error .jsonErr
          | some claims =>
            if now < claims.nbf then .error .notYetValid
            else if claims.exp ≤ now then .error .expired
            else .ok claims
  | _ => .error .invalidFormat

end Webchat

/-! ## Concrete fixtures used by witness theorems -/

/-- The created-message webhook payload of the webex ingest tests. -/
def webhookPayload404 : Json :=
  .obj [(ascii "resource", .str (ascii "messages")),
        (ascii "event", .str (ascii "created")),
        (ascii "data", .obj
          [(ascii "id", .str (ascii "MSG123")),
           (ascii "roomId", .str (ascii "ROOM1")),
           (ascii "personEmail", .str (ascii "sender@example.com"))])]

/-- The mock response seeded with status 404. -/
def resp404 : HttpResponse :=
  { status := 404, headers := []
    body := some (jsonSerialize (.obj [(ascii "message", .str (ascii "not found"))])) }

/-- A guest host whose secrets map holds only the webex bot token and
whose transport always answers `resp404`. -/
def host404 : Webex.GuestHost :=
  { secrets := fun k =>
      if k == Webex.DEFAULT_TOKEN_KEY then some (ascii "token") else none
    httpSend := fun _ => .ok resp404 }

/-- The inbound webhook request carrying `webhookPayload404`. -/
def request404 : Webex.HttpInV1 :=
  { method := ascii "POST", path := ascii "/webhook/webex", query := none
    headers := [], body_b64 := b64StdEncode (jsonSerialize webhookPayload404)
    route_hint := none, binding_id := none }

/-! # Shared helper lemmas -/

/-- Keys are preserved by mapping the values of an association list. -/
theorem assoc_map_fst (g : Json → Bytes) (l : List (Bytes × Json)) :
    (l.map (fun kv => (kv.1, g kv.2))).map Prod.fst = l.map Prod.fst := by
  induction l with
  | nil => rfl
  | cons hd tl ih => simp [ih]

/-- Lookup commutes with mapping the values of an association list. -/
theorem assoc_lookup_map (g : Json → Bytes) (l : List (Bytes × Json)) (k : Bytes)
    (j : Json) (h : l.lookup k = some j) :
    (l.map (fun kv => (kv.1, g kv.2))).lookup k = some (g j) := by
  induction l with
  | nil => simp [List.lookup] at h
  | cons hd tl ih =>
    rcases hd with ⟨a, b⟩
    by_cases hk : k == a
    · simp [List.lookup, hk] at h ⊢
      exact congrArg g h
    · simp [List.lookup, hk] at h ⊢
      exact ih h

/-- Filtering on a projected key then mapping is the same as mapping
then filtering. -/
theorem filter_key_map (p : Bytes → Bool) (l : List FieldRequirement) :
    (l.filter (fun f => p f.key)).map FieldRequirement.key =
      (l.map FieldRequirement.key).filter p := by
  induction l with
  | nil => rfl
  | cons hd tl ih =>
    by_cases hp : p hd.key
    · simp [List.filter, hp, ih]
    · simp [List.filter, hp, ih]

/-! ## Parser/serializer inversion lemmas (for the JWT round trip) -/

theorem skipWs_cons (c : Nat) (t : Bytes) (h : isWsByte c = false) :
    skipWs (c :: t) = c :: t := by
  simp [skipWs, List.dropWhile, h]

theorem natDecAux_digits : ∀ (fuel n : Nat), n < fuel →
    ∀ b ∈ natDecAux fuel n, 48 ≤ b ∧ b ≤ 57 := by
  intro fuel
  induction fuel with
  | zero => intro n h; omega
  | succ f ih =>
    intro n hn b hb
    unfold natDecAux at hb
    by_cases h10 : n < 10
    · simp [h10] at hb
      omega
    · simp only [h10, if_false, List.mem_append, List.mem_singleton] at hb
      rcases hb with hb | hb
      · refine ih (n / 10) ?_ b hb
        have := Nat.div_lt_self (show 0 < n by omega) (show 1 < 10 by omega)
        omega
      · omega

theorem natDecAux_ne_nil : ∀ (fuel n : Nat), n < fuel → natDecAux fuel n ≠ [] := by
  intro fuel n h
  cases fuel with
  | zero => omega
  | succ f =>
    unfold natDecAux
    by_cases h10 : n < 10 <;> simp [h10]

theorem parseDigits_all_digits : ∀ (s : Bytes) (acc : Nat) (t : Bytes),
    (∀ b ∈ s, 48 ≤ b ∧ b ≤ 57) →
    parseDigits acc (s ++ t) =
      parseDigits (s.foldl (fun a c => a * 10 + (c - 48)) acc) t := by
  intro s
  induction s with
  | nil => intro acc t _; rfl
  | cons d s2 ih =>
    intro acc t h
    have hd := h d (by simp)
    simp only [List.cons_append, parseDigits, if_pos hd, List.foldl_cons]
    exact ih (acc * 10 + (d - 48)) t (fun b hb => h b (by simp [hb]))

theorem parseDigits_boundary : ∀ (t : Bytes) (acc : Nat), digitBoundary t →
    parseDigits acc t = some (acc, t) := by
  intro t acc h
  cases t with
  | nil => rfl
  | cons c t2 =>
    simp only [parseDigits]
    rw [if_neg h]

theorem natDecAux_foldl : ∀ (fuel n acc : Nat), n < fuel →
    (natDecAux fuel n).foldl (fun a c => a * 10 + (c - 48)) acc =
      acc * 10 ^ (natDecAux fuel n).length + n := by
  intro fuel
  induction fuel with
  | zero => intro n acc h; omega
  | succ f ih =>
    intro n acc hn
    by_cases h10 : n < 10
    · simp [natDecAux, h10]
    · have hlt : n / 10 < f := by
        have := Nat.div_lt_self (show 0 < n by omega) (show 1 < 10 by omega)
        omega
      simp only [natDecAux, h10, if_false, List.foldl_append, List.length_append,
        List.foldl_cons, List.foldl_nil, List.length_singleton]
      rw [ih (n / 10) acc hlt]
      have hpow : acc * 10 ^ ((natDecAux f (n / 10)).length + 1) =
          acc * 10 ^ (natDecAux f (n / 10)).length * 10 := by ring
      rw [hpow]
      omega

theorem parseValue_natDec (fuel m : Nat) (rest : Bytes) (hb : digitBoundary rest) :
    parseValue (fuel + 1) (natDec m ++ rest) = some (.num (m : Int), rest) := by
  rcases hD : natDec m with _ | ⟨d, ds⟩
  · exact absurd hD (natDecAux_ne_nil (m + 1) m (by omega))
  · have hdig := natDecAux_digits (m + 1) m (by omega)
    rw [show natDecAux (m + 1) m = natDec m from rfl, hD] at hdig
    have hd : 48 ≤ d ∧ d ≤ 57 := hdig d (by simp)
    have hds : ∀ b ∈ ds, 48 ≤ b ∧ b ≤ 57 := fun b hb2 => hdig b (by simp [hb2])
    have hval : ds.foldl (fun a c => a * 10 + (c - 48)) (d - 48) = m := by
      have h0 := natDecAux_foldl (m + 1) m 0 (by omega)
      rw [show natDecAux (m + 1) m = natDec m from rfl, hD] at h0
      simp only [List.foldl_cons, Nat.zero_mul, Nat.zero_add] at h0
      simpa using h0
    have hws : isWsByte d = false := by
      simp only [isWsByte, Bool.or_eq_false_iff, beq_eq_false_iff_ne]
      omega
    have h110 : (d == 110) = false := beq_eq_false_iff_ne.mpr (by omega)
    have h116 : (d == 116) = false := beq_eq_false_iff_ne.mpr (by omega)
    have h102 : (d == 102) = false := beq_eq_false_iff_ne.mpr (by omega)
    have h34 : (d == 34) = false := beq_eq_false_iff_ne.mpr (by omega)
    have h91 : (d == 91) = false := beq_eq_false_iff_ne.mpr (by omega)
    have h123 : (d == 123) = false := beq_eq_false_iff_ne.mpr (by omega)
    have h45 : (d == 45) = false := beq_eq_false_iff_ne.mpr (by omega)
    simp only [List.cons_append, parseValue, skipWs_cons _ _ hws, h110, h116,
      h102, h34, h91, h123, h45, Bool.false_eq_true, if_false, if_pos hd]
    rw [parseDigits_all_digits ds (d - 48) rest hds,
      parseDigits_boundary rest _ hb, hval]
    rfl

theorem parseValue_intDec (fuel : Nat) (n : Int) (rest : Bytes)
    (hb : digitBoundary rest) :
    parseValue (fuel + 1) (intDec n ++ rest) = some (.num n, rest) := by
  by_cases hneg : n < 0
  · rcases hD : natDec n.natAbs with _ | ⟨d, ds⟩
    · exact absurd hD (natDecAux_ne_nil (n.natAbs + 1) n.natAbs (by omega))
    · have hdig := natDecAux_digits (n.natAbs + 1) n.natAbs (by omega)
      rw [show natDecAux (n.natAbs + 1) n.natAbs = natDec n.natAbs from rfl,
        hD] at hdig
      have hd : 48 ≤ d ∧ d ≤ 57 := hdig d (by simp)
      have hds : ∀ b ∈ ds, 48 ≤ b ∧ b ≤ 57 := fun b hb2 => hdig b (by simp [hb2])
      have hval : ds.foldl (fun a c => a * 10 + (c - 48)) (d - 48) = n.natAbs := by
        have h0 := natDecAux_foldl (n.natAbs + 1) n.natAbs 0 (by omega)
        rw [show natDecAux (n.natAbs + 1) n.natAbs = natDec n.natAbs from rfl,
          hD] at h0
        simp only [List.foldl_cons, Nat.zero_mul, Nat.zero_add] at h0
        simpa using h0
      simp only [intDec, if_pos hneg, hD, List.cons_append, parseValue,
        skipWs_cons 45 _ (by decide),
        show ((45 : Nat) == 110) = false from rfl,
        show ((45 : Nat) == 116) = false from rfl,
        show ((45 : Nat) == 102) = false from rfl,
        show ((45 : Nat) == 34) = false from rfl,
        show ((45 : Nat) == 91) = false from rfl,
        show ((45 : Nat) == 123) = false from rfl,
        show ((45 : Nat) == 45) = true from rfl,
        Bool.false_eq_true, if_false, if_true, if_pos hd]
      rw [parseDigits_all_digits ds (d - 48) rest hds,
        parseDigits_boundary rest _ hb, hval]
      have hmap : (some ((n.natAbs : Nat), rest)).map
          (fun r => (Json.num (-(r.1 : Int)), r.2)) =
          some (Json.num (-(n.natAbs : Int)), rest) := rfl
      rw [hmap, show (-(n.natAbs : Int)) = n from by omega]
  · have h0 : (0 : Int) ≤ n := by omega
    have habs : ((n.natAbs : Nat) : Int) = n := by omega
    have : intDec n = natDec n.natAbs := by simp [intDec, hneg]
    rw [this, parseValue_natDec fuel n.natAbs rest hb, habs]

theorem psb_quote (rest : Bytes) : parseStringBody (34 :: rest) = some ([], rest) := by
  rw [parseStringBody.eq_def]
  rfl

theorem psb_plain (b : Nat) (rest : Bytes) (h34 : b ≠ 34) (h92 : b ≠ 92) :
    parseStringBody (b :: rest) =
      (parseStringBody rest).map (fun r => (b :: r.1, r.2)) := by
  rw [parseStringBody.eq_def]
  simp [beq_eq_false_iff_ne.mpr h34, beq_eq_false_iff_ne.mpr h92]

theorem psb_esc_quote (rest : Bytes) :
    parseStringBody (92 :: 34 :: rest) =
      (parseStringBody rest).map (fun r => (34 :: r.1, r.2)) := by
  rw [parseStringBody.eq_def]
  rfl

theorem psb_esc_back (rest : Bytes) :
    parseStringBody (92 :: 92 :: rest) =
      (parseStringBody rest).map (fun r => (92 :: r.1, r.2)) := by
  rw [parseStringBody.eq_def]
  rfl

theorem psb_esc_b (rest : Bytes) :
    parseStringBody (92 :: 98 :: rest) =
      (parseStringBody rest).map (fun r => (8 :: r.1, r.2)) := by
  rw [parseStringBody.eq_def]
  rfl

theorem psb_esc_t (rest : Bytes) :
    parseStringBody (92 :: 116 :: rest) =
      (parseStringBody rest).map (fun r => (9 :: r.1, r.2)) := by
  rw [parseStringBody.eq_def]
  rfl

theorem psb_esc_n (rest : Bytes) :
    parseStringBody (92 :: 110 :: rest) =
      (parseStringBody rest).map (fun r => (10 :: r.1, r.2)) := by
  rw [parseStringBody.eq_def]
  rfl

theorem psb_esc_f (rest : Bytes) :
    parseStringBody (92 :: 102 :: rest) =
      (parseStringBody rest).map (fun r => (12 :: r.1, r.2)) := by
  rw [parseStringBody.eq_def]
  rfl

theorem psb_esc_r (rest : Bytes) :
    parseStringBody (92 :: 114 :: rest) =
      (parseStringBody rest).map (fun r => (13 :: r.1, r.2)) := by
  rw [parseStringBody.eq_def]
  rfl

theorem psb_esc_u (h1 h2 h3 h4 : Nat) (rest : Bytes) (a b c3 d : Nat)
    (hh1 : hexVal h1 = some a) (hh2 : hexVal h2 = some b)
    (hh3 : hexVal h3 = some c3) (hh4 : hexVal h4 = some d)
    (hcp : ((a * 16 + b) * 16 + c3) * 16 + d < 128) :
    parseStringBody (92 :: 117 :: h1 :: h2 :: h3 :: h4 :: rest) =
      (parseStringBody rest).map
        (fun r => ((((a * 16 + b) * 16 + c3) * 16 + d) :: r.1, r.2)) := by
  rw [parseStringBody.eq_def]
  simp [hh1, hh2, hh3, hh4, hcp]

theorem parseStringBody_escape : ∀ (s : Bytes), validBytes s → ∀ (rest : Bytes),
    parseStringBody (escapeStr s ++ (34 :: rest)) = some (s, rest) := by
  intro s
  induction s with
  | nil =>
    intro _ rest
    simp only [escapeStr, List.flatMap_nil, List.nil_append]
    exact psb_quote rest
  | cons b s2 ih =>
    intro hv rest
    have hb : b < 256 := hv b (by simp)
    have hv2 : validBytes s2 := fun x hx => hv x (by simp [validBytes, hx])
    have ihr := ih hv2 rest
    simp only [escapeStr, List.flatMap_cons] at ihr ⊢
    by_cases hc34 : b = 34
    · subst hc34
      rw [show escapeByte 34 = [92, 34] from rfl]
      simp only [List.cons_append, List.nil_append]
      rw [psb_esc_quote, ihr]
      rfl
    · by_cases hc92 : b = 92
      · subst hc92
        rw [show escapeByte 92 = [92, 92] from rfl]
        simp only [List.cons_append, List.nil_append]
        rw [psb_esc_back, ihr]
        rfl
      · by_cases hc8 : b = 8
        · subst hc8
          rw [show escapeByte 8 = [92, 98] from rfl]
          simp only [List.cons_append, List.nil_append]
          rw [psb_esc_b, ihr]
          rfl
        · by_cases hc9 : b = 9
          · subst hc9
            rw [show escapeByte 9 = [92, 116] from rfl]
            simp only [List.cons_append, List.nil_append]
            rw [psb_esc_t, ihr]
            rfl
          · by_cases hc10 : b = 10
            · subst hc10
              rw [show escapeByte 10 = [92, 110] from rfl]
              simp only [List.cons_append, List.nil_append]
              rw [psb_esc_n, ihr]
              rfl
            · by_cases hc12 : b = 12
              · subst hc12
                rw [show escapeByte 12 = [92, 102] from rfl]
                simp only [List.cons_append, List.nil_append]
                rw [psb_esc_f, ihr]
                rfl
              · by_cases hc13 : b = 13
                · subst hc13
                  rw [show escapeByte 13 = [92, 114] from rfl]
                  simp only [List.cons_append, List.nil_append]
                  rw [psb_esc_r, ihr]
                  rfl
                · by_cases hlt : b < 32
                  · -- the \u00XX escape
                    have hesc : escapeByte b =
                        [92, 117, 48, 48, 48 + b / 16,
                         if b % 16 < 10 then 48 + b % 16 else 87 + b % 16] := by
                      simp only [escapeByte, beq_eq_false_iff_ne.mpr hc34,
                        beq_eq_false_iff_ne.mpr hc92, beq_eq_false_iff_ne.mpr hc8,
                        beq_eq_false_iff_ne.mpr hc9, beq_eq_false_iff_ne.mpr hc10,
                        beq_eq_false_iff_ne.mpr hc12, beq_eq_false_iff_ne.mpr hc13,
                        Bool.false_eq_true, if_false, if_pos hlt]
                    have hhex1 : hexVal (48 + b / 16) = some (b / 16) := by
                      have h1 : 48 ≤ 48 + b / 16 ∧ 48 + b / 16 ≤ 57 := by omega
                      simp only [hexVal, if_pos h1]
                      congr 1
                      omega
                    have hhex2 : hexVal
                        (if b % 16 < 10 then 48 + b % 16 else 87 + b % 16) =
                        some (b % 16) := by
                      by_cases hm : b % 16 < 10
                      · rw [if_pos hm]
                        have h1 : 48 ≤ 48 + b % 16 ∧ 48 + b % 16 ≤ 57 := by omega
                        simp only [hexVal, if_pos h1]
                        congr 1
                        omega
                      · rw [if_neg hm]
                        have h1 : ¬(48 ≤ 87 + b % 16 ∧ 87 + b % 16 ≤ 57) := by
                          omega
                        have h2 : 97 ≤ 87 + b % 16 ∧ 87 + b % 16 ≤ 102 := by
                          have := Nat.mod_lt b (show 0 < 16 by omega)
                          omega
                        simp only [hexVal, if_neg h1, if_pos h2]
                        congr 1
                        omega
                    rw [hesc]
                    simp only [List.cons_append, List.nil_append]
                    rw [psb_esc_u 48 48 (48 + b / 16)
                      (if b % 16 < 10 then 48 + b % 16 else 87 + b % 16) _
                      0 0 (b / 16) (b % 16) rfl rfl hhex1 hhex2 (by omega), ihr]
                    simp
                    omega
                  · -- plain byte
                    have hesc : escapeByte b = [b] := by
                      simp only [escapeByte, beq_eq_false_iff_ne.mpr hc34,
                        beq_eq_false_iff_ne.mpr hc92, beq_eq_false_iff_ne.mpr hc8,
                        beq_eq_false_iff_ne.mpr hc9, beq_eq_false_iff_ne.mpr hc10,
                        beq_eq_false_iff_ne.mpr hc12, beq_eq_false_iff_ne.mpr hc13,
                        Bool.false_eq_true, if_false, if_neg hlt]
                    rw [hesc]
                    simp only [List.cons_append, List.nil_append]
                    rw [psb_plain b _ hc34 hc92, ihr]
                    rfl

theorem parseValue_quoteStr (fuel : Nat) (s : Bytes) (hv : validBytes s)
    (rest : Bytes) :
    parseValue (fuel + 1) (quoteStr s ++ rest) = some (.str s, rest) := by
  have hq : quoteStr s ++ rest = 34 :: (escapeStr s ++ (34 :: rest)) := by
    simp [quoteStr]
  rw [hq]
  simp only [parseValue, skipWs_cons 34 _ (by decide),
    show ((34 : Nat) == 110) = false from rfl,
    show ((34 : Nat) == 116) = false from rfl,
    show ((34 : Nat) == 102) = false from rfl,
    show ((34 : Nat) == 34) = true from rfl,
    Bool.false_eq_true, if_false, if_true]
  rw [parseStringBody_escape s hv rest]
  rfl

theorem parseValue_null (fuel : Nat) (rest : Bytes) :
    parseValue (fuel + 1) (ascii "null" ++ rest) = some (.null, rest) := by
  rw [show ascii "null" ++ rest = 110 :: 117 :: 108 :: 108 :: rest from rfl]
  simp [parseValue, skipWs_cons 110 _ (by decide), stripPfx, List.isPrefixOf,
    List.drop]

/-! ## Base64 and byte-validity lemmas -/

theorem urlAlphaInv_alpha : ∀ v, v < 64 → urlAlphaInv (urlAlpha v) = some v := by
  decide

theorem b64enc_step (alpha : Nat → Nat) (b1 b2 b3 : Nat) (rest : Bytes) :
    b64EncodeCore alpha (b1 :: b2 :: b3 :: rest) =
      alpha (b1 / 4) :: alpha ((b1 % 4) * 16 + b2 / 16) ::
      alpha ((b2 % 16) * 4 + b3 / 64) :: alpha (b3 % 64) ::
      b64EncodeCore alpha rest := by
  rw [b64EncodeCore.eq_def]

theorem b64dec_step (ai : Nat → Option Nat) (c1 c2 c3 c4 : Nat) (rest : Bytes)
    (v1 v2 v3 v4 : Nat) (h1 : ai c1 = some v1) (h2 : ai c2 = some v2)
    (h3 : ai c3 = some v3) (h4 : ai c4 = some v4) :
    b64DecodeCore ai (c1 :: c2 :: c3 :: c4 :: rest) =
      (b64DecodeCore ai rest).map
        (fun tl => (v1 * 4 + v2 / 16) :: ((v2 % 16) * 16 + v3 / 4) ::
                   ((v3 % 4) * 64 + v4) :: tl) := by
  rw [b64DecodeCore.eq_def]
  simp only [h1, h2, h3, h4]
  cases b64DecodeCore ai rest <;> rfl

theorem b64_roundtrip_core (alpha : Nat → Nat) (ai : Nat → Option Nat)
    (hinv : ∀ v, v < 64 → ai (alpha v) = some v) :
    ∀ (bs : Bytes), validBytes bs →
      b64DecodeCore ai (b64EncodeCore alpha bs) = some bs
  | [], _ => rfl
  | [b1], hv => by
    have hb1 : b1 < 256 := hv b1 (by simp)
    have e1 : b64EncodeCore alpha [b1] =
        [alpha (b1 / 4), alpha ((b1 % 4) * 16)] := rfl
    have h1 := hinv (b1 / 4) (by omega)
    have h2 := hinv ((b1 % 4) * 16) (by omega)
    rw [e1, b64DecodeCore.eq_def]
    simp only [h1, h2]
    rw [if_pos (by simp [Nat.mul_mod_left])]
    simp
    omega
  | [b1, b2], hv => by
    have hb1 : b1 < 256 := hv b1 (by simp)
    have hb2 : b2 < 256 := hv b2 (by simp)
    have e1 : b64EncodeCore alpha [b1, b2] =
        [alpha (b1 / 4), alpha ((b1 % 4) * 16 + b2 / 16),
         alpha ((b2 % 16) * 4)] := rfl
    have h1 := hinv (b1 / 4) (by omega)
    have h2 := hinv ((b1 % 4) * 16 + b2 / 16) (by omega)
    have h3 := hinv ((b2 % 16) * 4) (by omega)
    rw [e1, b64DecodeCore.eq_def]
    simp only [h1, h2, h3]
    rw [if_pos (by simp [Nat.mul_mod_left])]
    simp
    omega
  | b1 :: b2 :: b3 :: rest, hv => by
    have hb1 : b1 < 256 := hv b1 (by simp)
    have hb2 : b2 < 256 := hv b2 (by simp)
    have hb3 : b3 < 256 := hv b3 (by simp)
    have hvr : validBytes rest := fun x hx => hv x (by simp [validBytes, hx])
    have ih := b64_roundtrip_core alpha ai hinv rest hvr
    rw [b64enc_step,
      b64dec_step ai _ _ _ _ _ (b1 / 4) ((b1 % 4) * 16 + b2 / 16)
        ((b2 % 16) * 4 + b3 / 64) (b3 % 64)
        (hinv _ (by omega)) (hinv _ (by omega)) (hinv _ (by omega))
        (hinv _ (by omega)),
      ih]
    have e1 : b1 / 4 * 4 + ((b1 % 4) * 16 + b2 / 16) / 16 = b1 := by omega
    have e2 : (((b1 % 4) * 16 + b2 / 16) % 16) * 16 +
        ((b2 % 16) * 4 + b3 / 64) / 4 = b2 := by omega
    have e3 : (((b2 % 16) * 4 + b3 / 64) % 4) * 64 + b3 % 64 = b3 := by omega
    simp [e1, e2, e3]

theorem b64Url_roundtrip (bs : Bytes) (hv : validBytes bs) :
    b64UrlDecode (b64UrlEncode bs) = some bs :=
  b64_roundtrip_core urlAlpha urlAlphaInv urlAlphaInv_alpha bs hv

theorem urlAlpha_ne_dot (v : Nat) : urlAlpha v ≠ 46 := by
  unfold urlAlpha
  split_ifs <;> omega

theorem b64UrlEncode_no_dot : ∀ (bs : Bytes), ∀ c ∈ b64UrlEncode bs, c ≠ 46
  | [] => by simp [b64UrlEncode, b64EncodeCore]
  | [b1] => by
    intro c hc
    rw [show b64UrlEncode [b1] =
      [urlAlpha (b1 / 4), urlAlpha ((b1 % 4) * 16)] from rfl] at hc
    simp at hc
    rcases hc with h | h <;> (subst h; exact urlAlpha_ne_dot _)
  | [b1, b2] => by
    intro c hc
    rw [show b64UrlEncode [b1, b2] =
      [urlAlpha (b1 / 4), urlAlpha ((b1 % 4) * 16 + b2 / 16),
       urlAlpha ((b2 % 16) * 4)] from rfl] at hc
    simp at hc
    rcases hc with h | h | h <;> (subst h; exact urlAlpha_ne_dot _)
  | b1 :: b2 :: b3 :: rest => by
    intro c hc
    rw [show b64UrlEncode (b1 :: b2 :: b3 :: rest) =
      b64EncodeCore urlAlpha (b1 :: b2 :: b3 :: rest) from rfl,
      b64enc_step] at hc
    simp only [List.mem_cons] at hc
    rcases hc with h | h | h | h | h
    · subst h; exact urlAlpha_ne_dot _
    · subst h; exact urlAlpha_ne_dot _
    · subst h; exact urlAlpha_ne_dot _
    · subst h; exact urlAlpha_ne_dot _
    · exact b64UrlEncode_no_dot rest c h

theorem splitByte_no_sep (sep : Nat) : ∀ (s : Bytes), (∀ c ∈ s, c ≠ sep) →
    splitByte sep s = [s]
  | [], _ => rfl
  | c :: rest, h => by
    have hc : (c == sep) = false := beq_eq_false_iff_ne.mpr (h c (by simp))
    have ih := splitByte_no_sep sep rest (fun x hx => h x (by simp [hx]))
    simp [splitByte, hc, ih]

theorem splitByte_sep_append (sep : Nat) : ∀ (a b : Bytes), (∀ c ∈ a, c ≠ sep) →
    splitByte sep (a ++ sep :: b) = a :: splitByte sep b
  | [], b, _ => by simp [splitByte]
  | c :: a2, b, h => by
    have hc : (c == sep) = false := beq_eq_false_iff_ne.mpr (h c (by simp))
    have ih := splitByte_sep_append sep a2 b (fun x hx => h x (by simp [hx]))
    simp only [List.cons_append, splitByte, hc, Bool.false_eq_true, if_false]
    rw [show List.append a2 (sep :: b) = a2 ++ sep :: b from rfl, ih]

theorem validBytes_append {a b : Bytes} (ha : validBytes a) (hb : validBytes b) :
    validBytes (a ++ b) := by
  intro x hx
  rcases List.mem_append.mp hx with h | h
  · exact ha x h
  · exact hb x h

theorem escapeByte_valid (b : Nat) (h : b < 256) : validBytes (escapeByte b) := by
  intro x hx
  unfold escapeByte at hx
  split_ifs at hx <;> simp at hx <;> omega

theorem escapeStr_valid (s : Bytes) (h : validBytes s) : validBytes (escapeStr s) := by
  intro x hx
  unfold escapeStr at hx
  rcases List.mem_flatMap.mp hx with ⟨b, hb, hxb⟩
  exact escapeByte_valid b (h b hb) x hxb

theorem natDec_valid (n : Nat) : validBytes (natDec n) := by
  intro x hx
  have := natDecAux_digits (n + 1) n (by omega) x hx
  omega

theorem intDec_valid (n : Int) : validBytes (intDec n) := by
  intro x hx
  unfold intDec at hx
  split_ifs at hx
  · rcases List.mem_cons.mp hx with h | h
    · omega
    · exact natDec_valid _ x h
  · exact natDec_valid _ x hx

theorem quoteStr_valid (s : Bytes) (h : validBytes s) : validBytes (quoteStr s) := by
  intro x hx
  unfold quoteStr at hx
  rcases List.mem_cons.mp hx with h1 | h1
  · omega
  · rcases List.mem_append.mp h1 with h2 | h2
    · exact escapeStr_valid s h x h2
    · simp at h2; omega

theorem beBytes_valid : ∀ (n x : Nat), validBytes (Sha256.beBytes n x)
  | 0, _ => by simp [Sha256.beBytes, validBytes]
  | n + 1, x => by
    intro b hb
    rw [show Sha256.beBytes (n + 1) x =
      ((x >>> (8 * n)) % 256) :: Sha256.beBytes n x from rfl] at hb
    rcases List.mem_cons.mp hb with h | h
    · omega
    · exact beBytes_valid n x b h

theorem sha256_valid (msg : Bytes) : validBytes (sha256 msg) := by
  intro b hb
  unfold Sha256.sha256 at hb
  rcases List.mem_flatMap.mp hb with ⟨w, _, hbw⟩
  exact beBytes_valid 4 w b hbw

theorem hmacSha256_valid (key msg : Bytes) : validBytes (hmacSha256 key msg) := by
  unfold hmacSha256
  exact sha256_valid _

/-! # Theorems on the claims -/

/-- Claim C6: every durable-state `read`, `write` and `delete` of the
harness host returns the fixed unimplemented/unavailable fault, for
every key, payload and tenant context; the host state is left untouched
and no call ever succeeds. -/
theorem C6_state_store_unavailable {κ τ : Type} (st : TestHostState) (key : κ)
    (bytes : Bytes) (ctx : Option τ) :
    state_store_read st key ctx = (.error stateUnavailable, st) ∧
    state_store_write st key bytes ctx = (.error stateUnavailable, st) ∧
    state_store_delete st key ctx = (.error stateUnavailable, st) ∧
    stateUnavailable.code = ascii "unimplemented" :=
  ⟨rfl, rfl, rfl, rfl⟩

/-- Claim C7: seeding the mock queue with `[A, B]` and issuing two
transport calls yields `A` then `B`, recorded in that order; a third
call on the exhausted queue, like any call on an empty queue, receives
the default canned success — status 200, JSON body `{"status":"ok"}`,
no headers. -/
theorem C7_mock_fifo_and_fallback (hist : List CallRecord) (q1 q2 q3 : HttpRequest)
    (s1 s2 : Nat) (b1 b2 : Bytes) (anyQueue : List (Nat × Bytes)) :
    (queue_response (queue_response (clear_queue ⟨anyQueue, hist⟩) s1 b1) s2 b2 =
      ⟨[(s1, b1), (s2, b2)], hist⟩) ∧
    ((mock_send ⟨[(s1, b1), (s2, b2)], hist⟩ q1).1 = ⟨s1, [], some b1⟩) ∧
    ((mock_send (mock_send ⟨[(s1, b1), (s2, b2)], hist⟩ q1).2 q2).1 = ⟨s2, [], some b2⟩) ∧
    ((mock_send (mock_send (mock_send ⟨[(s1, b1), (s2, b2)], hist⟩ q1).2 q2).2 q3).1 =
      default_http_handler q3) ∧
    ((mock_send ⟨[], hist⟩ q3).1 = default_http_handler q3) ∧
    (default_http_handler q3 = ⟨200, [], some (ascii "\x7b\"status\":\"ok\"\x7d")⟩) ∧
    ((mock_send (mock_send ⟨[(s1, b1), (s2, b2)], hist⟩ q1).2 q2).2.history =
      hist ++ [⟨q1, ⟨s1, [], some b1⟩⟩, ⟨q2, ⟨s2, [], some b2⟩⟩]) := by
  refine ⟨?_, rfl, rfl, rfl, rfl, ?_, ?_⟩
  · simp [queue_response, clear_queue]
  · have : jsonSerialize (Json.obj [(ascii "status", Json.str (ascii "ok"))]) =
      ascii "\x7b\"status\":\"ok\"\x7d" := by decide
    simp [default_http_handler, this]
  · simp [mock_send]

/-- Claim C9 (as stated): `http_mode` is `Mock` when the `http` field is
absent or is any string whose ASCII lowercasing differs from `"real"`,
and is `Real` exactly when the lowercased field equals `"real"`; an
unrecognized mode therefore never selects real transport. -/
theorem C9_http_mode_fail_safe (v : Values) :
    (v.http = none → v.http_mode = HttpMode.Mock) ∧
    (∀ s, v.http = some s → toAsciiLowercase s ≠ ascii "real" →
      v.http_mode = HttpMode.Mock) ∧
    (v.http_mode = HttpMode.Real ↔
      ∃ s, v.http = some s ∧ toAsciiLowercase s = ascii "real") := by
  have hdef : v.http_mode =
      (if toAsciiLowercase (v.http.getD (ascii "mock")) == ascii "real"
       then HttpMode.Real else HttpMode.Mock) := rfl
  rcases hv : v.http with _ | s
  · rw [hv] at hdef
    refine ⟨fun _ => ?_, ?_, ?_⟩
    · rw [hdef]; decide
    · intro s2 hs2
      exact nomatch hs2
    · rw [hdef]
      constructor
      · intro h
        exact absurd h (by decide)
      · rintro ⟨s2, hs2, _⟩
        exact nomatch hs2
  · rw [hv] at hdef
    simp only [Option.getD] at hdef
    by_cases hr : toAsciiLowercase s = ascii "real"
    · refine ⟨?_, ?_, ?_⟩
      · intro h
        exact nomatch h
      · intro s2 hs2 hne
        cases hs2
        exact absurd hr hne
      · rw [hdef]
        simp only [beq_iff_eq.mpr hr, if_true]
        constructor
        · intro _
          exact ⟨s, rfl, hr⟩
        · intro _
          trivial
    · have hb : (toAsciiLowercase s == ascii "real") = false :=
        beq_eq_false_iff_ne.mpr hr
      simp only [hb, Bool.false_eq_true, if_false] at hdef
      refine ⟨?_, ?_, ?_⟩
      · intro h
        exact nomatch h
      · intro _ _ _
        exact hdef
      · rw [hdef]
        constructor
        · intro h
          exact absurd h (by decide)
        · rintro ⟨s2, hs2, hr2⟩
          cases hs2
          exact absurd hr2 hr

/-- Claim C9 witness: the bundle with no `http` field selects the mock
transport. -/
theorem C9_witness :
    (Values.mk [] [] [] none []).http_mode = HttpMode.Mock :=
  (C9_http_mode_fail_safe _).1 rfl

/-- Claim C8: `secret_bytes` keeps exactly the keys of the secrets map;
a secret whose JSON value is a string maps to that string's bytes
verbatim, and any non-string secret maps to the bytes of its serialized
JSON text. -/
theorem C8_secret_bytes (v : Values) :
    (v.secret_bytes.map Prod.fst = v.secrets.map Prod.fst) ∧
    (∀ k s, v.secrets.lookup k = some (Json.str s) →
      v.secret_bytes.lookup k = some s) ∧
    (∀ k j, v.secrets.lookup k = some j → (∀ s, j ≠ Json.str s) →
      v.secret_bytes.lookup k = some (jsonSerialize j)) := by
  refine ⟨assoc_map_fst _ _, fun k s h => ?_, fun k j h hns => ?_⟩
  · exact assoc_lookup_map secretValueBytes v.secrets k _ h
  · have := assoc_lookup_map secretValueBytes v.secrets k _ h
    rwa [show secretValueBytes j = jsonSerialize j from ?_] at this
    cases j with
    | str s => exact absurd rfl (hns s)
    | null => rfl
    | bool b => rfl
    | num n => rfl
    | arr l => rfl
    | obj l => rfl

/-- Claim C8 witness: a string secret materializes verbatim, an empty
object secret as the bytes of `"{}"`. -/
theorem C8_witness :
    (Values.mk [] [(ascii "TEXT", .str (ascii "text")), (ascii "MAP", .obj [])]
      [] none []).secret_bytes.lookup (ascii "TEXT") = some (ascii "text") ∧
    (Values.mk [] [(ascii "TEXT", .str (ascii "text")), (ascii "MAP", .obj [])]
      [] none []).secret_bytes.lookup (ascii "MAP") = some (ascii "\x7b\x7d") := by
  constructor
  · exact (C8_secret_bytes
      (Values.mk [] [(ascii "TEXT", .str (ascii "text")), (ascii "MAP", .obj [])]
        [] none [])).2.1 (ascii "TEXT") (ascii "text") rfl
  · have h := (C8_secret_bytes
      (Values.mk [] [(ascii "TEXT", .str (ascii "text")), (ascii "MAP", .obj [])]
        [] none [])).2.2 (ascii "MAP") (.obj []) rfl (fun s hne => by cases hne)
    rwa [show jsonSerialize (Json.obj []) = ascii "\x7b\x7d" from rfl] at h

/-- Claim C5: a `send_payload` input whose `provider_type` differs from
the module's declared `"messaging.webex.bot"` is rejected with the
type-mismatch result (`ok` false, message `"provider type mismatch"`,
not retryable) and no outbound transport call is issued, whatever the
rest of the send path would do. -/
theorem C5_send_payload_type_mismatch (send_in : Webex.SendPayloadInV1)
    (rest : Webex.SendPayloadInV1 → SendPayloadResultV1 × List HttpRequest)
    (h : send_in.provider_type ≠ Webex.PROVIDER_TYPE) :
    Webex.send_payload send_in rest =
      ({ ok := false, message := some (ascii "provider type mismatch"),
         retryable := false }, []) := by
  simp [Webex.send_payload, Webex.send_payload_error, h]

/-- Claim C5 witness: a telegram-typed payload offered to the webex
module is rejected without any transport call. -/
theorem C5_witness :
    Webex.send_payload
      { provider_type := ascii "messaging.telegram.bot", tenant_id := none,
        auth_user := none,
        payload := { content_type := ascii "application/json", body_b64 := [],
                     metadata := [] } }
      (fun _ => ({ ok := true, message := none, retryable := false },
                 [{ method := ascii "POST", url := ascii "https://example.invalid",
                    headers := [], body := none }])) =
      ({ ok := false, message := some (ascii "provider type mismatch"),
         retryable := false }, []) :=
  C5_send_payload_type_mismatch _ _ (by decide)

/-- Claim C2: when the parsed `render_plan` response carries `ok:false`,
the pipeline stops after the render stage: the encode step and the
`send_payload` invocation are never reached, and the error surfaced to
the caller is `"render_plan reported failure"`, naming the render
stage. -/
theorem C2_render_plan_short_circuit (req : Requirements) (values : Values)
    (text : Option Bytes) (card : Option Json) (toDest : Option Bytes)
    (m : ModuleBehavior)
    (hval : (req.validate values).is_empty = true)
    (hmsg : (text.isNone && card.isNone) = false)
    (hto : (toDest.map (fun d => (trimBytes d).isEmpty)).getD false = false)
    (hfail : (jsonGet m.planResponse (ascii "ok")).bind jsonAsBool = some false) :
    handle_send req values text card toDest m =
      (.error (.providerOp (ascii "render_plan reported failure")),
       [PipeStep.renderPlan]) := by
  have hmsgj : ascii "render_plan" ++ ascii " reported failure" =
      ascii "render_plan reported failure" := by decide
  simp only [handle_send, ensure_ok, hval, hmsg, hto, hfail, Bool.not_true,
    Bool.false_eq_true, if_false, hmsgj]

/-- Claim C2 witness: a module whose `render_plan` answers `ok:false`
stops the pipeline at the render stage. -/
theorem C2_witness :
    handle_send
      { provider := ascii "webex", config := ⟨[]⟩, secrets := ⟨[]⟩, toReq := ⟨[]⟩ }
      { config := [], secrets := [], toMap := [], http := none, state := [] }
      (some (ascii "hello")) none none
      { planResponse := .obj [(ascii "ok", .bool false)]
        encodeResult := { ok := true, error := none, payload := none }
        sendResponse := { ok := true, message := none, retryable := false } } =
      (.error (.providerOp (ascii "render_plan reported failure")),
       [PipeStep.renderPlan]) :=
  C2_render_plan_short_circuit _ _ _ _ _ _ rfl rfl rfl rfl

/-- Claim C1 (amended): the validation report collects, in declaration
order, exactly the required config keys missing from the config map
(analogously for secrets, and for the destination-shape keys against the
`to` map) — every miss, not only the first.  A non-empty report blocks
the send pipeline entirely (validation error, nothing invoked); the
pipeline reaches the module invocation iff the report is empty AND the
remaining pre-invocation argument checks pass (a message text or card
was supplied, and the destination argument, when given, is not blank). -/
theorem C1_validate_and_gate (r : Requirements) (v : Values) (text : Option Bytes)
    (card : Option Json) (toDest : Option Bytes) (m : ModuleBehavior) :
    ((r.validate v).missing_config =
      (r.config.required.map FieldRequirement.key).filter
        (fun k => !containsKey v.config k)) ∧
    ((r.validate v).missing_secrets =
      (r.secrets.required.map FieldRequirement.key).filter
        (fun k => !containsKey v.secrets k)) ∧
    ((r.validate v).missing_to =
      (r.toReq.shape.map Prod.fst).filter (fun k => !containsKey v.toMap k)) ∧
    ((r.validate v).is_empty = false →
      handle_send r v text card toDest m =
        (.error (.validation (r.validate v)), [])) ∧
    ((handle_send r v text card toDest m).2.contains PipeStep.renderPlan = true ↔
      ((r.validate v).is_empty = true ∧ (text.isNone && card.isNone) = false ∧
       (toDest.map (fun d => (trimBytes d).isEmpty)).getD false = false)) := by
  refine ⟨?_, ?_, rfl, ?_, ?_⟩
  · show (r.config.required.filter (fun f => !containsKey v.config f.key)).map
        FieldRequirement.key = _
    exact filter_key_map (fun k => !containsKey v.config k) r.config.required
  · show (r.secrets.required.filter (fun f => !containsKey v.secrets f.key)).map
        FieldRequirement.key = _
    exact filter_key_map (fun k => !containsKey v.secrets k) r.secrets.required
  · intro hne
    simp only [handle_send, hne, Bool.not_false, if_true]
  · by_cases hval : (r.validate v).is_empty = true
    · by_cases hmsg : (text.isNone && card.isNone) = true
      · have hc : (handle_send r v text card toDest m).2 = [] := by
          simp only [handle_send, hval, hmsg, Bool.not_true, Bool.false_eq_true,
            if_false, if_true]
        rw [hc]
        simp [hmsg]
      · have hmsg2 : (text.isNone && card.isNone) = false := by
          revert hmsg; cases (text.isNone && card.isNone) <;> simp
        by_cases hto : (toDest.map (fun d => (trimBytes d).isEmpty)).getD false = true
        · have hc : (handle_send r v text card toDest m).2 = [] := by
            simp only [handle_send, hval, hmsg2, hto, Bool.not_true,
              Bool.false_eq_true, if_false, if_true]
          rw [hc]
          simp [hto]
        · have hto2 : (toDest.map (fun d => (trimBytes d).isEmpty)).getD false = false := by
            revert hto
            cases (toDest.map (fun d => (trimBytes d).isEmpty)).getD false <;> simp
          refine iff_of_true ?_ ⟨hval, hmsg2, hto2⟩
          simp only [handle_send, hval, hmsg2, hto2, Bool.not_true,
            Bool.false_eq_true, if_false]
          split
          · rfl
          · split
            · rfl
            · split
              · rfl
              · split
                · rfl
                · split
                  · rfl
                  · rfl
    · have hne : (r.validate v).is_empty = false := by
        revert hval; cases (r.validate v).is_empty <;> simp
      have hc : (handle_send r v text card toDest m).2 = [] := by
        simp only [handle_send, hne, Bool.not_false, if_true]
      rw [hc]
      simp [hne]

/-- Claim C1 witness: a required secret missing from the bundle blocks
the pipeline with the structured validation error before anything is
invoked. -/
theorem C1_witness :
    handle_send
      { provider := ascii "t", config := ⟨[]⟩, secrets := ⟨[⟨ascii "TOKEN"⟩]⟩,
        toReq := ⟨[]⟩ }
      { config := [], secrets := [], toMap := [], http := none, state := [] }
      (some (ascii "hi")) none none
      { planResponse := .null, encodeResult := ⟨true, none, none⟩,
        sendResponse := ⟨true, none, false⟩ } =
      (.error (.validation (Requirements.validate
        { provider := ascii "t", config := ⟨[]⟩, secrets := ⟨[⟨ascii "TOKEN"⟩]⟩,
          toReq := ⟨[]⟩ }
        { config := [], secrets := [], toMap := [], http := none, state := [] })), []) :=
  (C1_validate_and_gate _ _ _ _ _ _).2.2.2.1 rfl

/-- Claim C1 counterexample: with no requirements and no message
arguments the report is empty, yet the harness never invokes the
provider — it stops with the missing-`--text`/`--card` error — so
"report empty iff the harness proceeds to invoke" is false as stated. -/
theorem C1_counterexample :
    (Requirements.validate
      { provider := ascii "webex", config := ⟨[]⟩, secrets := ⟨[]⟩, toReq := ⟨[]⟩ }
      { config := [], secrets := [], toMap := [], http := none,
        state := [] }).is_empty = true ∧
    (handle_send
      { provider := ascii "webex", config := ⟨[]⟩, secrets := ⟨[]⟩, toReq := ⟨[]⟩ }
      { config := [], secrets := [], toMap := [], http := none, state := [] }
      none none none
      { planResponse := .null, encodeResult := ⟨true, none, none⟩,
        sendResponse := ⟨true, none, false⟩ }).2.contains PipeStep.renderPlan
      = false ∧
    handle_send
      { provider := ascii "webex", config := ⟨[]⟩, secrets := ⟨[]⟩, toReq := ⟨[]⟩ }
      { config := [], secrets := [], toMap := [], http := none, state := [] }
      none none none
      { planResponse := .null, encodeResult := ⟨true, none, none⟩,
        sendResponse := ⟨true, none, false⟩ } =
      (.error (.providerOp (ascii "send requires --text or --card")), []) :=
  ⟨rfl, rfl, rfl⟩

/-- Claim C3 (amended): verification succeeds exactly when the signature
header is present and its first `SHA-256=`-prefixed segment hex-decodes
to precisely HMAC-SHA256(secret, body); it returns false — never
panicking, the function is total — when the header is absent, when no
segment carries the prefix, when the selected hex is malformed (odd
length always is), or when the decoded bytes differ from the digest (in
particular for any body or hex alteration that changes the digest or the
decoded bytes; a pure case change of a hex letter decodes to the same
bytes and is still accepted). -/
theorem C3_signature_verification (secret body : Bytes)
    (headers : List (Bytes × Bytes)) :
    (∀ hv hex, webexSigHeader headers = some hv → webexSigHex hv = some hex →
      decode_hex hex = some (hmacSha256 secret body) →
      verify_webex_signature secret headers body = true) ∧
    (webexSigHeader headers = none →
      verify_webex_signature secret headers body = false) ∧
    (∀ hv, webexSigHeader headers = some hv → webexSigHex hv = none →
      verify_webex_signature secret headers body = false) ∧
    (∀ hv hex, webexSigHeader headers = some hv → webexSigHex hv = some hex →
      decode_hex hex = none → verify_webex_signature secret headers body = false) ∧
    (∀ hv hex bs, webexSigHeader headers = some hv → webexSigHex hv = some hex →
      decode_hex hex = some bs → bs ≠ hmacSha256 secret body →
      verify_webex_signature secret headers body = false) ∧
    (∀ hex : Bytes, hex.length % 2 = 1 → decode_hex hex = none) := by
  refine ⟨?_, ?_, ?_, ?_, ?_, ?_⟩
  · intro hv hex hh hx hd
    simp only [verify_webex_signature, hh, hx, hd]
    exact beq_iff_eq.mpr rfl
  · intro hh
    simp only [verify_webex_signature, hh]
  · intro hv hh hx
    simp only [verify_webex_signature, hh, hx]
  · intro hv hex hh hx hd
    simp only [verify_webex_signature, hh, hx, hd]
  · intro hv hex bs hh hx hd hne
    simp only [verify_webex_signature, hh, hx, hd]
    exact beq_eq_false_iff_ne.mpr (fun heq => hne heq.symm)
  · intro hex hodd
    unfold decode_hex
    rw [if_pos]
    simp [hodd]

/-- Claim C3 witness: a header whose `SHA-256=` segment carries the hex
of HMAC-SHA256(secret, body) verifies. -/
theorem C3_witness :
    verify_webex_signature (ascii "key")
      [(ascii "X-Webex-Signature",
        ascii "SHA-256=" ++ hexEncode (hmacSha256 (ascii "key") (ascii "body")))]
      (ascii "body") = true :=
  (C3_signature_verification (ascii "key") (ascii "body")
    [(ascii "X-Webex-Signature",
      ascii "SHA-256=" ++ hexEncode (hmacSha256 (ascii "key") (ascii "body")))]).1
  (ascii "SHA-256=" ++ hexEncode (hmacSha256 (ascii "key") (ascii "body")))
  (hexEncode (hmacSha256 (ascii "key") (ascii "body")))
  (by decide) (by decide) (by decide)

/-- Claim C3 counterexample: flipping one bit of the hex digest — the
case bit of its hex letter at index 3 — still verifies true, because
hex decoding is case-insensitive; so "flipping any bit of the hex digest
verifies false" is false as stated. -/
theorem C3_counterexample :
    (hexEncode (hmacSha256 (ascii "key") (ascii "body"))).set 3
      (((hexEncode (hmacSha256 (ascii "key") (ascii "body"))).getD 3 0) ^^^ 32) ≠
      hexEncode (hmacSha256 (ascii "key") (ascii "body")) ∧
    verify_webex_signature (ascii "key")
      [(ascii "x-webex-signature",
        ascii "SHA-256=" ++
          (hexEncode (hmacSha256 (ascii "key") (ascii "body"))).set 3
            (((hexEncode (hmacSha256 (ascii "key") (ascii "body"))).getD 3 0) ^^^ 32))]
      (ascii "body") = true := by
  constructor
  · decide
  · decide

/-- Claim C4: a created-message webhook whose follow-up fetch of the
message details answers with a non-2xx status still yields a well-formed
`HttpOutV1`: overall status 502, exactly one canonical envelope, that
envelope's text the empty string and its metadata carrying the ingest
error under `webex.ingestError` — never an aborted or absent result. -/
theorem C4_ingest_failure_isolation (host : Webex.GuestHost)
    (request : Webex.HttpInV1) (bodyBytes : Bytes) (bodyVal : Json)
    (token msgId : Bytes) (resp : HttpResponse)
    (hdec : b64StdDecode request.body_b64 = some bodyBytes)
    (hparse : fromSliceValue bodyBytes = some bodyVal)
    (hres : (jsonGet bodyVal (ascii "resource")).bind jsonAsStr =
      some (ascii "messages"))
    (hev : (jsonGet bodyVal (ascii "event")).bind jsonAsStr =
      some (ascii "created"))
    (hid : (jsonGet ((jsonGet bodyVal (ascii "data")).getD Json.null)
      (ascii "id")).bind jsonAsStr = some msgId)
    (htok : host.secrets Webex.DEFAULT_TOKEN_KEY = some token)
    (hsend : host.httpSend
      { method := ascii "GET"
        url := Webex.DEFAULT_API_BASE ++ ascii "/messages/" ++ msgId
        headers := [(ascii "Authorization", ascii "Bearer " ++ token)]
        body := none } = .ok resp)
    (hstatus : resp.status < 200 ∨ 300 ≤ resp.status) :
    (Webex.ingest_http host request).status = 502 ∧
    (Webex.ingest_http host request).events.length = 1 ∧
    ∀ e ∈ (Webex.ingest_http host request).events,
      e.text = some [] ∧
      (ascii "webex.ingestError",
        Webex.format_webex_error resp.status (resp.body.getD [])) ∈ e.metadata := by
  have hbase : Webex.trimEndSlashes
      ((optFilter (fun s => !(trimBytes s).isEmpty)
        Webex.defaultProviderConfig.api_base_url).getD Webex.DEFAULT_API_BASE) =
      Webex.DEFAULT_API_BASE := by decide
  have hcond : (decide (resp.status < 200) || decide (resp.status ≥ 300)) = true := by
    rcases hstatus with h | h <;> simp [h]
  have hfetch : Webex.fetch_message_details host msgId Webex.DEFAULT_API_BASE token =
      .error (Webex.format_webex_error resp.status (resp.body.getD [])) := by
    simp only [Webex.fetch_message_details, hsend, hcond]
    rfl
  have hout : Webex.handle_webhook_event host bodyVal Webex.defaultProviderConfig =
      { envelope := Webex.build_webhook_envelope []
          (((jsonGet ((jsonGet bodyVal (ascii "data")).getD Json.null)
              (ascii "roomId")).bind jsonAsStr).getD msgId)
          (Webex.pick_sender
            ((jsonGet ((jsonGet bodyVal (ascii "data")).getD Json.null)
              (ascii "personEmail")).bind jsonAsStr)
            ((jsonGet ((jsonGet bodyVal (ascii "data")).getD Json.null)
              (ascii "personId")).bind jsonAsStr))
          (Webex.build_webhook_metadata (ascii "messages") (ascii "created")
            (some msgId)
            ((jsonGet ((jsonGet bodyVal (ascii "data")).getD Json.null)
              (ascii "roomId")).bind jsonAsStr)
            ((jsonGet ((jsonGet bodyVal (ascii "data")).getD Json.null)
              (ascii "personEmail")).bind jsonAsStr)
            ((jsonGet ((jsonGet bodyVal (ascii "data")).getD Json.null)
              (ascii "personId")).bind jsonAsStr)
            (some (Webex.format_webex_error resp.status (resp.body.getD [])))
            none (some 502))
          [] (some msgId)
        status := 502
        error := some (Webex.format_webex_error resp.status (resp.body.getD [])) } := by
    simp only [Webex.handle_webhook_event, hres, hev, hid, Option.getD_some,
      beq_self_eq_true, Bool.and_self, if_true, Webex.get_secret_string, htok,
      hbase, hfetch]
  have hign : Webex.ingest_http host request =
      { status := 502
        headers := []
        body_b64 := (Webex.ingest_http host request).body_b64
        events := [(Webex.handle_webhook_event host bodyVal
          Webex.defaultProviderConfig).envelope] } := by
    simp only [Webex.ingest_http, hdec, hparse, Option.getD_some]
    rw [hout]
  rw [hign, hout]
  refine ⟨rfl, rfl, ?_⟩
  intro e he
  simp only [List.mem_singleton] at he
  subst he
  constructor
  · rfl
  · simp [Webex.build_webhook_envelope, Webex.build_webhook_metadata]

/-- Claim C4 witness: the mock fetch seeded with status 404 still yields
one envelope with empty text, the error metadata populated and overall
status 502. -/
theorem C4_witness :
    (Webex.ingest_http host404 request404).status = 502 ∧
    (Webex.ingest_http host404 request404).events.length = 1 ∧
    ∀ e ∈ (Webex.ingest_http host404 request404).events,
      e.text = some [] ∧
      (ascii "webex.ingestError",
        Webex.format_webex_error 404 (jsonSerialize
          (.obj [(ascii "message", .str (ascii "not found"))]))) ∈ e.metadata :=
  C4_ingest_failure_isolation host404 request404
    (jsonSerialize webhookPayload404) webhookPayload404
    (ascii "token") (ascii "MSG123") resp404
    rfl rfl rfl rfl rfl rfl rfl (Or.inr (by decide))

/-! ## JWT round-trip development (claim C10) -/

theorem skipWs_quoteStr (k r : Bytes) : skipWs (quoteStr k ++ r) = quoteStr k ++ r := by
  rw [show quoteStr k ++ r = 34 :: (escapeStr k ++ ([34] ++ r)) from by simp [quoteStr]]
  exact skipWs_cons 34 _ (by decide)

theorem pm_more (fuel : Nat) (s key : Bytes) (v : Json) (tailm rest : Bytes)
    (kvs : List (Bytes × Json)) (first : Bool)
    (hs : s = quoteStr key ++ ([58] ++ (jsonSerialize v ++ (44 :: tailm))))
    (hkey : validBytes key)
    (hpv : parseValue fuel (jsonSerialize v ++ (44 :: tailm)) = some (v, 44 :: tailm))
    (hsw : skipWs tailm = tailm)
    (hrec : parseMembers fuel tailm false = some (.obj kvs, rest)) :
    parseMembers (fuel + 1) s first = some (.obj ((key, v) :: kvs), rest) := by
  subst hs
  have hq : quoteStr key ++ ([58] ++ (jsonSerialize v ++ (44 :: tailm))) =
      34 :: (escapeStr key ++ (34 :: (58 :: (jsonSerialize v ++ (44 :: tailm))))) := by
    simp [quoteStr]
  rw [hq, parseMembers.eq_def]
  simp only [parseStringBody_escape key hkey, skipWs_cons 58 _ (by decide), hpv,
    skipWs_cons 44 _ (by decide), hsw, hrec]

theorem pm_last (fuel : Nat) (s key : Bytes) (v : Json) (rest : Bytes) (first : Bool)
    (hs : s = quoteStr key ++ ([58] ++ (jsonSerialize v ++ (125 :: rest))))
    (hkey : validBytes key)
    (hpv : parseValue fuel (jsonSerialize v ++ (125 :: rest)) = some (v, 125 :: rest)) :
    parseMembers (fuel + 1) s first = some (.obj [(key, v)], rest) := by
  subst hs
  have hq : quoteStr key ++ ([58] ++ (jsonSerialize v ++ (125 :: rest))) =
      34 :: (escapeStr key ++ (34 :: (58 :: (jsonSerialize v ++ (125 :: rest))))) := by
    simp [quoteStr]
  rw [hq, parseMembers.eq_def]
  simp only [parseStringBody_escape key hkey, skipWs_cons 58 _ (by decide), hpv,
    skipWs_cons 125 _ (by decide)]

theorem parseValue_obj_step (fuel : Nat) (s : Bytes) (res : Option (Json × Bytes))
    (hsw : skipWs s = s) (h : parseMembers fuel s true = res) :
    parseValue (fuel + 1) (123 :: s) = res := by
  simp only [parseValue, skipWs_cons 123 _ (by decide),
    show ((123 : Nat) == 110) = false from rfl,
    show ((123 : Nat) == 116) = false from rfl,
    show ((123 : Nat) == 102) = false from rfl,
    show ((123 : Nat) == 34) = false from rfl,
    show ((123 : Nat) == 91) = false from rfl,
    show ((123 : Nat) == 123) = true from rfl,
    Bool.false_eq_true, if_false, if_true]
  rw [hsw, h]


theorem parseValue_context (fuel : Nat) (ctx : Webchat.DirectLineContext)
    (henv : validBytes ctx.env) (hten : validBytes ctx.tenant)
    (hteam : ∀ t0 ∈ ctx.team, validBytes t0) (t : Bytes) :
    parseValue (fuel + 5) (jsonSerialize (Webchat.contextJson ctx) ++ t) =
      some (Webchat.contextJson ctx, t) := by
  obtain ⟨env, tenant, team⟩ := ctx
  cases team with
  | none =>
    have hser : jsonSerialize (Webchat.contextJson ⟨env, tenant, none⟩) ++ t =
        123 :: (quoteStr (ascii "env") ++ ([58] ++ (jsonSerialize (Json.str env) ++ (44 ::
          (quoteStr (ascii "tenant") ++ ([58] ++ (jsonSerialize (Json.str tenant) ++ (44 ::
            (quoteStr (ascii "team") ++ ([58] ++ (jsonSerialize Json.null ++ (125 :: t)))))))))))) := by
      simp [Webchat.contextJson, jsonSerialize, serializeFields, quoteStr,
        List.append_assoc]
    rw [hser]
    refine parseValue_obj_step (fuel + 4) _ _ (skipWs_quoteStr _ _) ?_
    refine pm_more (fuel + 3) _ (ascii "env") (Json.str env) _ t _ true rfl
      (by show ∀ b ∈ _, b < 256; decide) (parseValue_quoteStr (fuel + 2) env henv _)
      (skipWs_quoteStr _ _) ?_
    refine pm_more (fuel + 2) _ (ascii "tenant") (Json.str tenant) _ t _ false rfl
      (by show ∀ b ∈ _, b < 256; decide) (parseValue_quoteStr (fuel + 1) tenant hten _)
      (skipWs_quoteStr _ _) ?_
    exact pm_last (fuel + 1) _ (ascii "team") Json.null t false rfl
      (by show ∀ b ∈ _, b < 256; decide) (parseValue_null fuel (125 :: t))
  | some t0 =>
    have ht0 : validBytes t0 := hteam t0 rfl
    have hser : jsonSerialize (Webchat.contextJson ⟨env, tenant, some t0⟩) ++ t =
        123 :: (quoteStr (ascii "env") ++ ([58] ++ (jsonSerialize (Json.str env) ++ (44 ::
          (quoteStr (ascii "tenant") ++ ([58] ++ (jsonSerialize (Json.str tenant) ++ (44 ::
            (quoteStr (ascii "team") ++ ([58] ++ (jsonSerialize (Json.str t0) ++ (125 :: t)))))))))))) := by
      simp [Webchat.contextJson, jsonSerialize, serializeFields, quoteStr,
        List.append_assoc]
    rw [hser]
    refine parseValue_obj_step (fuel + 4) _ _ (skipWs_quoteStr _ _) ?_
    refine pm_more (fuel + 3) _ (ascii "env") (Json.str env) _ t _ true rfl
      (by show ∀ b ∈ _, b < 256; decide) (parseValue_quoteStr (fuel + 2) env henv _)
      (skipWs_quoteStr _ _) ?_
    refine pm_more (fuel + 2) _ (ascii "tenant") (Json.str tenant) _ t _ false rfl
      (by show ∀ b ∈ _, b < 256; decide) (parseValue_quoteStr (fuel + 1) tenant hten _)
      (skipWs_quoteStr _ _) ?_
    exact pm_last (fuel + 1) _ (ascii "team") (Json.str t0) t false rfl
      (by show ∀ b ∈ _, b < 256; decide) (parseValue_quoteStr fuel t0 ht0 _)

set_option maxHeartbeats 2000000 in
theorem parseValue_claims (fuel : Nat) (c : Webchat.TokenClaims)
    (hiss : validBytes c.iss) (haud : validBytes c.aud) (hsub : validBytes c.sub)
    (henv : validBytes c.ctx.env) (hten : validBytes c.ctx.tenant)
    (hteam : ∀ t0 ∈ c.ctx.team, validBytes t0)
    (hconv : ∀ t0 ∈ c.conv, validBytes t0) (t : Bytes) :
    parseValue (fuel + 14) (jsonSerialize (Webchat.claimsJson c) ++ t) =
      some (Webchat.claimsJson c, t) := by
  obtain ⟨iss0, aud0, sub0, iat0, nbf0, exp0, cx, conv0⟩ := c
  cases conv0 with
  | none =>
    have hser : jsonSerialize (Webchat.claimsJson ⟨iss0, aud0, sub0, iat0, nbf0, exp0, cx, none⟩) ++ t =
        123 :: (quoteStr (ascii "iss") ++ ([58] ++ (jsonSerialize (Json.str iss0) ++ (44 :: (quoteStr (ascii "aud") ++ ([58] ++ (jsonSerialize (Json.str aud0) ++ (44 :: (quoteStr (ascii "sub") ++ ([58] ++ (jsonSerialize (Json.str sub0) ++ (44 :: (quoteStr (ascii "iat") ++ ([58] ++ (jsonSerialize (Json.num iat0) ++ (44 :: (quoteStr (ascii "nbf") ++ ([58] ++ (jsonSerialize (Json.num nbf0) ++ (44 :: (quoteStr (ascii "exp") ++ ([58] ++ (jsonSerialize (Json.num exp0) ++ (44 :: (quoteStr (ascii "ctx") ++ ([58] ++ (jsonSerialize (Webchat.contextJson cx) ++ (125 :: t)))))))))))))))))))))))))))) := by
      simp [Webchat.claimsJson, jsonSerialize, serializeFields, quoteStr,
        List.append_assoc]
    rw [hser]
    refine parseValue_obj_step (fuel + 13) _ _ (skipWs_quoteStr _ _) ?_
    refine pm_more (fuel + 12) _ (ascii "iss") (Json.str iss0) _ t _ true rfl
      (by show ∀ b ∈ _, b < 256; decide) (parseValue_quoteStr (fuel + 11) iss0 hiss _)
      (skipWs_quoteStr _ _) ?_
    refine pm_more (fuel + 11) _ (ascii "aud") (Json.str aud0) _ t _ false rfl
      (by show ∀ b ∈ _, b < 256; decide) (parseValue_quoteStr (fuel + 10) aud0 haud _)
      (skipWs_quoteStr _ _) ?_
    refine pm_more (fuel + 10) _ (ascii "sub") (Json.str sub0) _ t _ false rfl
      (by show ∀ b ∈ _, b < 256; decide) (parseValue_quoteStr (fuel + 9) sub0 hsub _)
      (skipWs_quoteStr _ _) ?_
    refine pm_more (fuel + 9) _ (ascii "iat") (Json.num iat0) _ t _ false rfl
      (by show ∀ b ∈ _, b < 256; decide) (parseValue_intDec (fuel + 8) iat0 _ (by intro h; omega))
      (skipWs_quoteStr _ _) ?_
    refine pm_more (fuel + 8) _ (ascii "nbf") (Json.num nbf0) _ t _ false rfl
      (by show ∀ b ∈ _, b < 256; decide) (parseValue_intDec (fuel + 7) nbf0 _ (by intro h; omega))
      (skipWs_quoteStr _ _) ?_
    refine pm_more (fuel + 7) _ (ascii "exp") (Json.num exp0) _ t _ false rfl
      (by show ∀ b ∈ _, b < 256; decide) (parseValue_intDec (fuel + 6) exp0 _ (by intro h; omega))
      (skipWs_quoteStr _ _) ?_
    exact pm_last (fuel + 6) _ (ascii "ctx") (Webchat.contextJson cx) t false rfl
      (by show ∀ b ∈ _, b < 256; decide) (parseValue_context (fuel + 1) cx henv hten hteam _)
  | some cv =>
    have hcv : validBytes cv := hconv cv rfl
    have hser : jsonSerialize (Webchat.claimsJson ⟨iss0, aud0, sub0, iat0, nbf0, exp0, cx, some cv⟩) ++ t =
        123 :: (quoteStr (ascii "iss") ++ ([58] ++ (jsonSerialize (Json.str iss0) ++ (44 :: (quoteStr (ascii "aud") ++ ([58] ++ (jsonSerialize (Json.str aud0) ++ (44 :: (quoteStr (ascii "sub") ++ ([58] ++ (jsonSerialize (Json.str sub0) ++ (44 :: (quoteStr (ascii "iat") ++ ([58] ++ (jsonSerialize (Json.num iat0) ++ (44 :: (quoteStr (ascii "nbf") ++ ([58] ++ (jsonSerialize (Json.num nbf0) ++ (44 :: (quoteStr (ascii "exp") ++ ([58] ++ (jsonSerialize (Json.num exp0) ++ (44 :: (quoteStr (ascii "ctx") ++ ([58] ++ (jsonSerialize (Webchat.contextJson cx) ++ (44 :: (quoteStr (ascii "conv") ++ ([58] ++ (jsonSerialize (Json.str cv) ++ (125 :: t)))))))))))))))))))))))))))))))) := by
      simp [Webchat.claimsJson, jsonSerialize, serializeFields, quoteStr,
        List.append_assoc]
    rw [hser]
    refine parseValue_obj_step (fuel + 13) _ _ (skipWs_quoteStr _ _) ?_
    refine pm_more (fuel + 12) _ (ascii "iss") (Json.str iss0) _ t _ true rfl
      (by show ∀ b ∈ _, b < 256; decide) (parseValue_quoteStr (fuel + 11) iss0 hiss _)
      (skipWs_quoteStr _ _) ?_
    refine pm_more (fuel + 11) _ (ascii "aud") (Json.str aud0) _ t _ false rfl
      (by show ∀ b ∈ _, b < 256; decide) (parseValue_quoteStr (fuel + 10) aud0 haud _)
      (skipWs_quoteStr _ _) ?_
    refine pm_more (fuel + 10) _ (ascii "sub") (Json.str sub0) _ t _ false rfl
      (by show ∀ b ∈ _, b < 256; decide) (parseValue_quoteStr (fuel + 9) sub0 hsub _)
      (skipWs_quoteStr _ _) ?_
    refine pm_more (fuel + 9) _ (ascii "iat") (Json.num iat0) _ t _ false rfl
      (by show ∀ b ∈ _, b < 256; decide) (parseValue_intDec (fuel + 8) iat0 _ (by intro h; omega))
      (skipWs_quoteStr _ _) ?_
    refine pm_more (fuel + 8) _ (ascii "nbf") (Json.num nbf0) _ t _ false rfl
      (by show ∀ b ∈ _, b < 256; decide) (parseValue_intDec (fuel + 7) nbf0 _ (by intro h; omega))
      (skipWs_quoteStr _ _) ?_
    refine pm_more (fuel + 7) _ (ascii "exp") (Json.num exp0) _ t _ false rfl
      (by show ∀ b ∈ _, b < 256; decide) (parseValue_intDec (fuel + 6) exp0 _ (by intro h; omega))
      (skipWs_quoteStr _ _) ?_
    refine pm_more (fuel + 6) _ (ascii "ctx") (Webchat.contextJson cx) _ t _ false rfl
      (by show ∀ b ∈ _, b < 256; decide) (parseValue_context (fuel + 1) cx henv hten hteam _)
      (skipWs_quoteStr _ _) ?_
    exact pm_last (fuel + 5) _ (ascii "conv") (Json.str cv) t false rfl
      (by show ∀ b ∈ _, b < 256; decide) (parseValue_quoteStr (fuel + 4) cv hcv _)

theorem serializeFields_last_valid (k : Bytes) (v : Json) (hk : validBytes k)
    (hv : validBytes (jsonSerialize v)) : validBytes (serializeFields [(k, v)]) := by
  intro b hb
  rw [show serializeFields [(k, v)] = quoteStr k ++ [58] ++ jsonSerialize v from rfl] at hb
  simp only [List.append_assoc, List.mem_append, List.mem_singleton] at hb
  rcases hb with h | h | h
  · exact quoteStr_valid k hk b h
  · omega
  · exact hv b h

theorem serializeFields_cons_valid (k : Bytes) (v : Json) (kv2 : Bytes × Json)
    (rest : List (Bytes × Json)) (hk : validBytes k)
    (hv : validBytes (jsonSerialize v))
    (hrest : validBytes (serializeFields (kv2 :: rest))) :
    validBytes (serializeFields ((k, v) :: kv2 :: rest)) := by
  intro b hb
  rw [show serializeFields ((k, v) :: kv2 :: rest) =
    quoteStr k ++ [58] ++ jsonSerialize v ++ [44] ++ serializeFields (kv2 :: rest)
    from rfl] at hb
  simp only [List.append_assoc, List.mem_append, List.mem_singleton] at hb
  rcases hb with h | h | h | h | h
  · exact quoteStr_valid k hk b h
  · omega
  · exact hv b h
  · omega
  · exact hrest b h

theorem jsonSerialize_obj_valid (fields : List (Bytes × Json))
    (h : validBytes (serializeFields fields)) :
    validBytes (jsonSerialize (.obj fields)) := by
  intro b hb
  rw [show jsonSerialize (Json.obj fields) = 123 :: serializeFields fields ++ [125]
    from rfl] at hb
  rcases List.mem_cons.mp hb with h1 | h1
  · omega
  · rcases List.mem_append.mp h1 with h2 | h2
    · exact h b h2
    · simp at h2; omega

theorem contextJson_serialize_valid (ctx : Webchat.DirectLineContext)
    (henv : validBytes ctx.env) (hten : validBytes ctx.tenant)
    (hteam : ∀ t0 ∈ ctx.team, validBytes t0) :
    validBytes (jsonSerialize (Webchat.contextJson ctx)) := by
  obtain ⟨env, tenant, team⟩ := ctx
  cases team with
  | none =>
    exact jsonSerialize_obj_valid _
      (serializeFields_cons_valid _ _ _ _ (by show ∀ b ∈ _, b < 256; decide)
        (quoteStr_valid env henv)
        (serializeFields_cons_valid _ _ _ _ (by show ∀ b ∈ _, b < 256; decide)
          (quoteStr_valid tenant hten)
          (serializeFields_last_valid _ _ (by show ∀ b ∈ _, b < 256; decide)
            (by show ∀ b ∈ jsonSerialize Json.null, b < 256; decide))))
  | some t0 =>
    exact jsonSerialize_obj_valid _
      (serializeFields_cons_valid _ _ _ _ (by show ∀ b ∈ _, b < 256; decide)
        (quoteStr_valid env henv)
        (serializeFields_cons_valid _ _ _ _ (by show ∀ b ∈ _, b < 256; decide)
          (quoteStr_valid tenant hten)
          (serializeFields_last_valid _ _ (by show ∀ b ∈ _, b < 256; decide)
            (quoteStr_valid t0 (hteam t0 rfl)))))

theorem claimsJson_serialize_valid (c : Webchat.TokenClaims)
    (hiss : validBytes c.iss) (haud : validBytes c.aud) (hsub : validBytes c.sub)
    (henv : validBytes c.ctx.env) (hten : validBytes c.ctx.tenant)
    (hteam : ∀ t0 ∈ c.ctx.team, validBytes t0)
    (hconv : ∀ t0 ∈ c.conv, validBytes t0) :
    validBytes (jsonSerialize (Webchat.claimsJson c)) := by
  obtain ⟨iss0, aud0, sub0, iat0, nbf0, exp0, cx, conv0⟩ := c
  have hcx : validBytes (jsonSerialize (Webchat.contextJson cx)) :=
    contextJson_serialize_valid cx henv hten hteam
  cases conv0 with
  | none =>
    exact jsonSerialize_obj_valid _
      (serializeFields_cons_valid _ _ _ _ (by show ∀ b ∈ _, b < 256; decide)
        (quoteStr_valid iss0 hiss)
        (serializeFields_cons_valid _ _ _ _ (by show ∀ b ∈ _, b < 256; decide)
          (quoteStr_valid aud0 haud)
          (serializeFields_cons_valid _ _ _ _ (by show ∀ b ∈ _, b < 256; decide)
            (quoteStr_valid sub0 hsub)
            (serializeFields_cons_valid _ _ _ _ (by show ∀ b ∈ _, b < 256; decide)
              (intDec_valid iat0)
              (serializeFields_cons_valid _ _ _ _ (by show ∀ b ∈ _, b < 256; decide)
                (intDec_valid nbf0)
                (serializeFields_cons_valid _ _ _ _ (by show ∀ b ∈ _, b < 256; decide)
                  (intDec_valid exp0)
                  (serializeFields_last_valid _ _ (by show ∀ b ∈ _, b < 256; decide)
                    hcx)))))))
  | some cv =>
    exact jsonSerialize_obj_valid _
      (serializeFields_cons_valid _ _ _ _ (by show ∀ b ∈ _, b < 256; decide)
        (quoteStr_valid iss0 hiss)
        (serializeFields_cons_valid _ _ _ _ (by show ∀ b ∈ _, b < 256; decide)
          (quoteStr_valid aud0 haud)
          (serializeFields_cons_valid _ _ _ _ (by show ∀ b ∈ _, b < 256; decide)
            (quoteStr_valid sub0 hsub)
            (serializeFields_cons_valid _ _ _ _ (by show ∀ b ∈ _, b < 256; decide)
              (intDec_valid iat0)
              (serializeFields_cons_valid _ _ _ _ (by show ∀ b ∈ _, b < 256; decide)
                (intDec_valid nbf0)
                (serializeFields_cons_valid _ _ _ _ (by show ∀ b ∈ _, b < 256; decide)
                  (intDec_valid exp0)
                  (serializeFields_cons_valid _ _ _ _ (by show ∀ b ∈ _, b < 256; decide)
                    hcx
                    (serializeFields_last_valid _ _ (by show ∀ b ∈ _, b < 256; decide)
                      (quoteStr_valid cv (hconv cv rfl))))))))))

theorem fromSlice_claims (c : Webchat.TokenClaims)
    (hiss : validBytes c.iss) (haud : validBytes c.aud) (hsub : validBytes c.sub)
    (henv : validBytes c.ctx.env) (hten : validBytes c.ctx.tenant)
    (hteam : ∀ t0 ∈ c.ctx.team, validBytes t0)
    (hconv : ∀ t0 ∈ c.conv, validBytes t0) :
    fromSliceValue (jsonSerialize (Webchat.claimsJson c)) =
      some (Webchat.claimsJson c) := by
  unfold fromSliceValue
  have h := parseValue_claims ((jsonSerialize (Webchat.claimsJson c)).length + 26)
    c hiss haud hsub henv hten hteam hconv []
  rw [List.append_nil] at h
  rw [show (jsonSerialize (Webchat.claimsJson c)).length + 40 =
    ((jsonSerialize (Webchat.claimsJson c)).length + 26) + 14 from by omega, h]
  rfl

theorem jsonToClaims_claimsJson (c : Webchat.TokenClaims) :
    Webchat.jsonToClaims (Webchat.claimsJson c) = some c := by
  obtain ⟨iss0, aud0, sub0, iat0, nbf0, exp0, ⟨env, tenant, team⟩, conv0⟩ := c
  cases team <;> cases conv0 <;> rfl

set_option maxHeartbeats 4000000 in
theorem jwt_round_trip (secret : Bytes) (ctx : Webchat.DirectLineContext)
    (sub : Bytes) (conv : Option Bytes) (t0 now : Int)
    (hsub : validBytes sub) (henv : validBytes ctx.env)
    (hten : validBytes ctx.tenant) (hteam : ∀ x ∈ ctx.team, validBytes x)
    (hconv : ∀ x ∈ conv, validBytes x)
    (h1 : t0 ≤ now) (h2 : now < t0 + 1800) :
    Webchat.verify_token secret (Webchat.issue_token secret ctx sub conv t0).1 now =
      .ok { iss := Webchat.ISS, aud := Webchat.AUD, sub := sub, iat := t0,
            nbf := t0, exp := t0 + Webchat.TTL_SECONDS, ctx := ctx, conv := conv } := by
  have htok : (Webchat.issue_token secret ctx sub conv t0).1 =
      b64UrlEncode (jsonSerialize Webchat.headerJson) ++
        (46 :: (b64UrlEncode (jsonSerialize (Webchat.claimsJson
          { iss := Webchat.ISS, aud := Webchat.AUD, sub := sub, iat := t0,
            nbf := t0, exp := t0 + Webchat.TTL_SECONDS, ctx := ctx, conv := conv })) ++
          (46 :: b64UrlEncode (hmacSha256 secret
            (b64UrlEncode (jsonSerialize Webchat.headerJson) ++ [46] ++
             b64UrlEncode (jsonSerialize (Webchat.claimsJson
               { iss := Webchat.ISS, aud := Webchat.AUD, sub := sub, iat := t0,
                 nbf := t0, exp := t0 + Webchat.TTL_SECONDS, ctx := ctx,
                 conv := conv }))))))) := by
    simp [Webchat.issue_token, Webchat.encode_segment, List.append_assoc]
  rw [htok]
  have hsplit : splitByte 46
      (b64UrlEncode (jsonSerialize Webchat.headerJson) ++
        (46 :: (b64UrlEncode (jsonSerialize (Webchat.claimsJson
          { iss := Webchat.ISS, aud := Webchat.AUD, sub := sub, iat := t0,
            nbf := t0, exp := t0 + Webchat.TTL_SECONDS, ctx := ctx, conv := conv })) ++
          (46 :: b64UrlEncode (hmacSha256 secret
            (b64UrlEncode (jsonSerialize Webchat.headerJson) ++ [46] ++
             b64UrlEncode (jsonSerialize (Webchat.claimsJson
               { iss := Webchat.ISS, aud := Webchat.AUD, sub := sub, iat := t0,
                 nbf := t0, exp := t0 + Webchat.TTL_SECONDS, ctx := ctx,
                 conv := conv })))))))) =
      [b64UrlEncode (jsonSerialize Webchat.headerJson),
       b64UrlEncode (jsonSerialize (Webchat.claimsJson
         { iss := Webchat.ISS, aud := Webchat.AUD, sub := sub, iat := t0,
           nbf := t0, exp := t0 + Webchat.TTL_SECONDS, ctx := ctx, conv := conv })),
       b64UrlEncode (hmacSha256 secret
         (b64UrlEncode (jsonSerialize Webchat.headerJson) ++ [46] ++
          b64UrlEncode (jsonSerialize (Webchat.claimsJson
            { iss := Webchat.ISS, aud := Webchat.AUD, sub := sub, iat := t0,
              nbf := t0, exp := t0 + Webchat.TTL_SECONDS, ctx := ctx,
              conv := conv }))))] := by
    rw [splitByte_sep_append 46 _ _ (b64UrlEncode_no_dot _),
        splitByte_sep_append 46 _ _ (b64UrlEncode_no_dot _),
        splitByte_no_sep 46 _ (b64UrlEncode_no_dot _)]
  have hvc : validBytes (jsonSerialize (Webchat.claimsJson
      { iss := Webchat.ISS, aud := Webchat.AUD, sub := sub, iat := t0,
        nbf := t0, exp := t0 + Webchat.TTL_SECONDS, ctx := ctx, conv := conv })) :=
    claimsJson_serialize_valid _ (by show ∀ b ∈ Webchat.ISS, b < 256; decide)
      (by show ∀ b ∈ Webchat.AUD, b < 256; decide) hsub henv hten hteam hconv
  have hsig := b64Url_roundtrip _ (hmacSha256_valid secret
    (b64UrlEncode (jsonSerialize Webchat.headerJson) ++ [46] ++
     b64UrlEncode (jsonSerialize (Webchat.claimsJson
       { iss := Webchat.ISS, aud := Webchat.AUD, sub := sub, iat := t0,
         nbf := t0, exp := t0 + Webchat.TTL_SECONDS, ctx := ctx, conv := conv }))))
  have hpay := b64Url_roundtrip _ hvc
  have hfs := fromSlice_claims
    { iss := Webchat.ISS, aud := Webchat.AUD, sub := sub, iat := t0,
      nbf := t0, exp := t0 + Webchat.TTL_SECONDS, ctx := ctx, conv := conv }
    (by show ∀ b ∈ Webchat.ISS, b < 256; decide)
    (by show ∀ b ∈ Webchat.AUD, b < 256; decide)
    hsub henv hten hteam hconv
  have hjc := jsonToClaims_claimsJson
    { iss := Webchat.ISS, aud := Webchat.AUD, sub := sub, iat := t0,
      nbf := t0, exp := t0 + Webchat.TTL_SECONDS, ctx := ctx, conv := conv }
  simp only [Webchat.verify_token, hsplit, hsig, bne_self_eq_false,
    Bool.false_eq_true, if_false, hpay, hfs, Option.some_bind, hjc]
  rw [if_neg (by simp [Webchat.TTL_SECONDS]; omega),
      if_neg (by simp [Webchat.TTL_SECONDS]; omega)]

set_option maxHeartbeats 2000000 in
theorem jwt_reject (secret2 h p s : Bytes) (now : Int)
    (hh : ∀ c ∈ h, c ≠ 46) (hp : ∀ c ∈ p, c ≠ 46) (hs : ∀ c ∈ s, c ≠ 46)
    (hne : b64UrlDecode s ≠ some (hmacSha256 secret2 (h ++ [46] ++ p))) :
    ∃ e, Webchat.verify_token secret2 (h ++ (46 :: (p ++ (46 :: s)))) now =
      .error e := by
  have hsplit : splitByte 46 (h ++ (46 :: (p ++ (46 :: s)))) = [h, p, s] := by
    rw [splitByte_sep_append 46 _ _ hh, splitByte_sep_append 46 _ _ hp,
        splitByte_no_sep 46 _ hs]
  rcases hd : b64UrlDecode s with _ | d
  · exact ⟨.base64Err, by simp only [Webchat.verify_token, hsplit, hd]⟩
  · have hdne : hmacSha256 secret2 (h ++ [46] ++ p) ≠ d := by
      intro he
      exact hne (by rw [hd, he])
    have hb : (hmacSha256 secret2 (h ++ [46] ++ p) != d) = true :=
      bne_iff_ne.mpr hdne
    exact ⟨.invalidSignature, by
      simp only [Webchat.verify_token, hsplit, hd, hb, if_true]⟩

/-- C10: tokens issued by `issue_token` carry `exp = iat + 1800` and verify
under the same secret at any time in the validity window, recovering the
issued claims; verification rejects whenever the recomputed HMAC under the
verifying secret differs from the token's decoded signature segment. -/
theorem C10_jwt_round_trip_and_tamper :
    (∀ (secret : Bytes) (ctx : Webchat.DirectLineContext) (sub : Bytes)
       (conv : Option Bytes) (t0 now : Int),
       validBytes sub → validBytes ctx.env → validBytes ctx.tenant →
       (∀ x ∈ ctx.team, validBytes x) → (∀ x ∈ conv, validBytes x) →
       t0 ≤ now → now < t0 + 1800 →
       (Webchat.issue_token secret ctx sub conv t0).2 = t0 + 1800 ∧
       Webchat.verify_token secret (Webchat.issue_token secret ctx sub conv t0).1 now =
         .ok { iss := Webchat.ISS, aud := Webchat.AUD, sub := sub, iat := t0,
               nbf := t0, exp := t0 + 1800, ctx := ctx, conv := conv }) ∧
    (∀ (secret2 h p s : Bytes) (now : Int),
       (∀ c ∈ h, c ≠ 46) → (∀ c ∈ p, c ≠ 46) → (∀ c ∈ s, c ≠ 46) →
       b64UrlDecode s ≠ some (hmacSha256 secret2 (h ++ [46] ++ p)) →
       ∃ e, Webchat.verify_token secret2 (h ++ (46 :: (p ++ (46 :: s)))) now =
         .error e) := by
  constructor
  · intro secret ctx sub conv t0 now hsub henv hten hteam hconv h1 h2
    exact ⟨rfl, jwt_round_trip secret ctx sub conv t0 now hsub henv hten hteam
      hconv h1 h2⟩
  · exact fun secret2 h p s now hh hp hs hne => jwt_reject secret2 h p s now hh hp hs hne

/-- `C10` witness: a concrete token round trip at `t0 = 100`, `now = 150`. -/
theorem C10_witness :
    Webchat.verify_token (ascii "secret")
      (Webchat.issue_token (ascii "secret")
        { env := ascii "prod", tenant := ascii "t1", team := none }
        (ascii "user1") none 100).1 150 =
      .ok { iss := Webchat.ISS, aud := Webchat.AUD, sub := ascii "user1",
            iat := 100, nbf := 100, exp := 100 + 1800,
            ctx := { env := ascii "prod", tenant := ascii "t1", team := none },
            conv := none } :=
  (C10_jwt_round_trip_and_tamper.1 (ascii "secret")
    { env := ascii "prod", tenant := ascii "t1", team := none }
    (ascii "user1") none 100 150
    (by show ∀ b ∈ _, b < 256; decide)
    (by show ∀ b ∈ _, b < 256; decide)
    (by show ∀ b ∈ _, b < 256; decide)
    (by simp) (by simp) (by omega) (by omega)).2

/-- `C10` counterexample to the claim as stated: HMAC-SHA256 hashes keys
longer than 64 bytes first, so the SHA-256 digest of a 65-byte secret is a
different secret under which verification still succeeds. -/
theorem C10_counterexample :
    sha256 (List.replicate 65 97) ≠ List.replicate 65 97 ∧
    Webchat.verify_token (sha256 (List.replicate 65 97))
      (Webchat.issue_token (List.replicate 65 97)
        { env := ascii "e", tenant := ascii "t", team := none }
        (ascii "u") none 0).1 0 =
      .ok { iss := Webchat.ISS, aud := Webchat.AUD, sub := ascii "u",
            iat := 0, nbf := 0, exp := 1800,
            ctx := { env := ascii "e", tenant := ascii "t", team := none },
            conv := none } := by
  constructor
  · decide
  · rfl

end GMP
